import Mathlib

/-!
Verification of the symbol layout driver of the vector-map rendering engine
(`symbol_layout.ts`: `performSymbolLayout`, `addFeature`, `addSymbol`,
`anchorIsTooClose`, `getAnchorJustification`).

The embedding below translates the layout driver itself line by line.  Modules
the driver imports that are not part of the analysed sources (the glyph shaper
`shaping.ts`, the collision feature builder `collision_feature.ts`, the tile
extent constant `extent.ts`, `variable_text_anchor.ts`, the `murmurhash-js`
library, and the bucket array classes) are modelled from the specification and
are clearly marked as such; each of those models keeps exactly the interface
the driver consumes.  JavaScript specifics that the driver relies on — ordered
string-keyed objects, truthiness of `0`/`undefined`, `Object.keys` insertion
order — are modelled explicitly.
-/

namespace SymbolLayout

/-- Modelled from the spec: the em size of the glyph grid.  `one_em.ts` is not
in the analysed slice; the driver itself uses the matching constant
`glyphSize = 24`, and all offsets are converted with this factor. -/
def ONE_EM : ℚ := 24

/-- Modelled from the spec: "EXTENT: the fixed integer coordinate range
defining one tile's local coordinate space" (`data/extent.ts` is not in the
analysed slice; 8192 is the standard vector-tile extent).  None of the
theorems below depend on the numeric value. -/
def EXTENT : ℚ := 8192

/-- Text anchor values of the `text-anchor` / `text-variable-anchor`
properties (style-spec enum). -/
inductive TextAnchor where
  | center | left | right | top | bottom
  | topLeft | topRight | bottomLeft | bottomRight
  deriving DecidableEq, Repr

/-- Justification values handled by the driver (`TextJustify` from
`shaping.ts`; the evaluated `text-justify` property additionally allows
`auto`, which the driver resolves before shaping). -/
inductive TextJustify where
  | auto | center | left | right
  deriving DecidableEq, Repr

/-- Record key under which a justification is stored in the JavaScript object
`shapedTextOrientations.horizontal` (property names are strings). -/
def TextJustify.key : TextJustify → String
  | .auto => "auto"
  | .center => "center"
  | .left => "left"
  | .right => "right"

/-- Translation of `getAnchorJustification` (symbol_layout.ts): choose the
justification that matches the direction of the TextAnchor. -/
def getAnchorJustification : TextAnchor → TextJustify
  | .right | .topRight | .bottomRight => .right
  | .left | .topLeft | .bottomLeft => .left
  | _ => .center

/-- Specification wording ("justification is derived from the variable
text-anchor's horizontal side"): anchors on the right side justify right,
anchors on the left side justify left, all others center. -/
def anchorJustificationBySide (a : TextAnchor) : TextJustify :=
  if a = .right ∨ a = .topRight ∨ a = .bottomRight then .right
  else if a = .left ∨ a = .topLeft ∨ a = .bottomLeft then .left
  else .center

/-! JavaScript objects with string property names keep their properties in
insertion order (all keys occurring here are non-numeric strings, except the
read of key "0", which is never assigned).  We model such an object as an
ordered association list; a stored value `none` models a property that is
present but holds `undefined`. -/

/-- Property read `o[k]`: `none` when the property is absent. -/
def jsGet {α : Type} (o : List (String × α)) (k : String) : Option α :=
  match o with
  | [] => none
  | (k2, v) :: rest => if k2 = k then some v else jsGet rest k

/-- Property write `o[k] = v`: updates in place when the property exists,
appends otherwise (JavaScript property insertion order). -/
def jsSet {α : Type} (o : List (String × α)) (k : String) (v : α) :
    List (String × α) :=
  match o with
  | [] => [(k, v)]
  | (k2, v2) :: rest => if k2 = k then (k2, v) :: rest else (k2, v2) :: jsSet rest k v

/-- Object.keys (and for..in): the property names in insertion order. -/
def jsKeys {α : Type} (o : List (String × α)) : List String := o.map Prod.fst

/-- Modelled from the spec: one positioned line of a shaping ("a sequence of
positioned glyphs"; `shaping.ts` is not in the analysed slice).  Only the
number of lines and per-line glyph counts are consumed by the layout driver,
so a line is modelled by its glyph count. -/
structure PositionedLine where
  glyphCount : ℕ
  deriving DecidableEq, Repr

/-- Modelled from the spec: one oriented collision box ("anchor-relative
offsets + padding") as appended to the shared collision box array
(`collision_feature.ts` is not in the analysed slice). -/
structure CollisionBox where
  x1 : ℚ
  y1 : ℚ
  x2 : ℚ
  y2 : ℚ
  deriving DecidableEq, Repr

/-- Modelled from the spec: the result of `shapeText` ("a sequence of
positioned lines ... plus aggregate metrics", `shaping.ts` not in the slice).
`collisionBoxes` and `collisionCircle` record what the collision feature
builder (`collision_feature.ts`, also not in the slice) derives for this
shaping within one `addSymbol` call: either the ordered box list, or the
circle diameter when circle-based collision is chosen. -/
structure Shaping where
  text : String
  positionedLines : List PositionedLine
  iconsInText : Bool
  collisionBoxes : List CollisionBox
  collisionCircle : Option ℚ
  deriving DecidableEq, Repr

/-- Modelled from the spec: the result of `shapeIcon` / `fitIconToText` ("a
single positioned icon box", `shaping.ts` not in the slice).  `quadCount`
models `getIconQuads(...).length` (`quads.ts` not in the slice);
`collisionBoxes` / `collisionCircle` as in `Shaping`. -/
structure PositionedIcon where
  quadCount : ℕ
  collisionBoxes : List CollisionBox
  collisionCircle : Option ℚ
  deriving DecidableEq, Repr

/-- Modelled from the spec: a collision feature holds the `[startIndex,
endIndex)` range of its boxes in the shared collision box array, plus the
circle diameter when runtime circle collision is to be used. -/
structure CollisionFeature where
  boxStartIndex : ℕ
  boxEndIndex : ℕ
  circleDiameter : Option ℚ
  deriving DecidableEq, Repr

/-- Modelled from the spec: the `CollisionFeature` constructor appends the
feature's boxes to the shared collision box array and records the
`[startIndex, endIndex)` range ("Boxes/circles are appended into shared
growable arrays ... referenced by [startIndex, endIndex) ranges"). -/
def mkCollisionFeature (collisionBoxArray : List CollisionBox)
    (boxes : List CollisionBox) (circle : Option ℚ) :
    CollisionFeature × List CollisionBox :=
  (⟨collisionBoxArray.length, collisionBoxArray.length + boxes.length, circle⟩,
    collisionBoxArray ++ boxes)

/-- Translation of `ShapedTextOrientations` (symbol_layout.ts): `horizontal`
is a JavaScript record keyed by justification name. -/
structure ShapedTextOrientations where
  horizontal : List (String × Option Shaping)
  vertical : Option Shaping
  deriving DecidableEq, Repr

/-- Translation of `getDefaultHorizontalShaping` (symbol_layout.ts): return
the value of the first key of the record, or null when it has no keys. -/
def getDefaultHorizontalShaping
    (horizontalShaping : List (String × Option Shaping)) : Option Shaping :=
  match horizontalShaping with
  | [] => none
  | (_, v) :: _ => v

/-- Translation of the justification set construction in `performSymbolLayout`
(lines 387-395): a JavaScript `Set` iterates in insertion order and
deduplicates, fed from the variable anchor offsets when `text-justify` is
`auto`, else from the single evaluated justification. -/
def justificationsFor (textJustify : TextJustify)
    (variableAnchorOffset : List (TextAnchor × ℚ × ℚ)) : List TextJustify :=
  if textJustify = .auto then
    (variableAnchorOffset.map (fun p => getAnchorJustification p.1)).foldl
      (fun acc j => if j ∈ acc then acc else acc ++ [j]) []
  else [textJustify]

/-- Translation of the shaping loop over justifications in
`performSymbolLayout` (lines 397-414).  `shapeTextAt` models the `shapeText`
call with anchor `center` and all arguments other than the justification
fixed (`shaping.ts` is not in the slice; per the spec `shapeText` is a pure
function of its inputs).  Note the re-use branch assigns the JavaScript value
`shapedTextOrientations.horizontal[0]`, i.e. the value stored under the
property name "0". -/
def justificationLoop (shapeTextAt : TextJustify → Option Shaping) :
    List TextJustify → Bool → List (String × Option Shaping) →
    List (String × Option Shaping)
  | [], _, horizontal => horizontal
  | justification :: rest, singleLine, horizontal =>
    match jsGet horizontal justification.key with
    | some (some _) => justificationLoop shapeTextAt rest singleLine horizontal
    | _ =>
      if singleLine then
        justificationLoop shapeTextAt rest singleLine
          (jsSet horizontal justification.key (jsGet horizontal "0").join)
      else
        match shapeTextAt justification with
        | some shaping =>
          justificationLoop shapeTextAt rest
            (decide (shaping.positionedLines.length = 1))
            (jsSet horizontal justification.key (some shaping))
        | none => justificationLoop shapeTextAt rest singleLine horizontal

/-- Modelled from the spec: an anchor is "a tile-local point (x, y, optional
line-segment index, optional label angle)" (`anchor.ts` is not in the
analysed slice; the label angle is not consumed by the driver code below). -/
structure Anchor where
  x : ℚ
  y : ℚ
  segment : ℤ
  deriving DecidableEq, Repr

/-- Squared Euclidean distance between two anchors. -/
def distSq (a b : Anchor) : ℚ := (a.x - b.x) ^ 2 + (a.y - b.y) ^ 2

/-- Exact characterization of the comparison `anchor.dist(other) <
repeatDistance` in `anchorIsTooClose`: the (nonnegative) Euclidean distance
is below `r` exactly when `0 ≤ r` and the squared distance is below `r * r`. -/
def distLt (a b : Anchor) (r : ℚ) : Bool :=
  decide (0 ≤ r) && decide (distSq a b < r * r)

/-- Translation of `anchorIsTooClose` (symbol_layout.ts): consult and update
`bucket.compareText` for the given text; report true when the anchor is
within `repeatDistance` of a recorded anchor for the identical text, and
record the anchor otherwise. -/
def anchorIsTooClose (compareText : List (String × List Anchor)) (text : String)
    (repeatDistance : ℚ) (anchor : Anchor) : Bool × List (String × List Anchor) :=
  match jsGet compareText text with
  | none => (false, jsSet compareText text [anchor])
  | some otherAnchors =>
    if otherAnchors.any (fun other => distLt anchor other repeatDistance) then
      (true, compareText)
    else
      (false, jsSet compareText text (otherAnchors ++ [anchor]))

/-- Translation of the repeat distance computation in `addFeature` (lines
526 and 533): `symbolMinDistance = bucket.tilePixelRatio * symbol-spacing`
and `textRepeatDistance = symbolMinDistance / 2`. -/
def textRepeatDistance (symbolSpacing tilePixelRatio : ℚ) : ℚ :=
  tilePixelRatio * symbolSpacing / 2

/-- Sequence of `anchorIsTooClose` consultations as performed by the
line-placement anchor loop of `addFeature`: process the candidates in order,
threading `compareText`, and collect the accepted (not skipped) candidates. -/
def runAnchors (repeatDistance : ℚ) :
    List (String × Anchor) → List (String × List Anchor) →
    List (String × List Anchor) × List (String × Anchor)
  | [], compareText => (compareText, [])
  | (text, anchor) :: rest, compareText =>
    let res := anchorIsTooClose compareText text repeatDistance anchor
    let next := runAnchors repeatDistance rest res.2
    if res.1 then next else (next.1, (text, anchor) :: next.2)

/-- Modelled from the spec: `TextAnchorEnum` of `variable_text_anchor.ts`
(not in the analysed slice): the numeric encoding of a text anchor stored in
the `TextAnchorOffsetArray`. -/
def TextAnchorEnum : TextAnchor → ℕ
  | .center => 1
  | .left => 2
  | .right => 3
  | .top => 4
  | .bottom => 5
  | .topLeft => 6
  | .topRight => 7
  | .bottomLeft => 8
  | .bottomRight => 9

/-- Entry of the bucket's `TextAnchorOffsetArray`. -/
structure TextAnchorOffsetEntry where
  textAnchor : ℕ
  offsetX : ℚ
  offsetY : ℚ
  deriving DecidableEq, Repr

/-- Translation of `addTextVariableAnchorOffsets` (symbol_layout.ts): append
each (anchor, offset) pair of the collection to the bucket's
`textAnchorOffsets` array and return the `[startIndex, endIndex)` range. -/
def addTextVariableAnchorOffsets (textAnchorOffsets : List TextAnchorOffsetEntry)
    (variableAnchorOffset : Option (List (TextAnchor × ℚ × ℚ))) :
    (ℕ × ℕ) × List TextAnchorOffsetEntry :=
  let startIndex := textAnchorOffsets.length
  match variableAnchorOffset with
  | some values =>
    if 0 < values.length then
      let arr := textAnchorOffsets ++
        values.map (fun p => ⟨TextAnchorEnum p.1, p.2.1, p.2.2⟩)
      ((startIndex, arr.length), arr)
    else ((startIndex, textAnchorOffsets.length), textAnchorOffsets)
  | none => ((startIndex, textAnchorOffsets.length), textAnchorOffsets)

/-- Modelled from the spec: `getGlyphQuads(...).length` (`quads.ts` is not in
the analysed slice): one quad per positioned glyph of the shaping. -/
def glyphQuadCount (s : Shaping) : ℕ :=
  (s.positionedLines.map PositionedLine.glyphCount).sum

/-- Translation of `addTextVertices` (symbol_layout.ts) at the granularity
the claims consume: `bucket.addSymbols` appends one placed text symbol
(`symbol_bucket.ts` is not in the slice; per the spec one placed symbol per
call), every listed placement type records the index of that placed symbol,
and the returned vertex count is `glyphQuads.length * 4`. -/
def addTextVertices (shapedText : Shaping) (placementTypes : List String)
    (placedTextSymbolIndices : List (String × ℤ)) (textPlacedSymbolCount : ℕ) :
    ℕ × List (String × ℤ) × ℕ :=
  let newCount := textPlacedSymbolCount + 1
  let idx : ℤ := (newCount : ℤ) - 1
  let indices := placementTypes.foldl (fun acc t => jsSet acc t idx) placedTextSymbolIndices
  (glyphQuadCount shapedText * 4, indices, newCount)

/-- Translation of the symbol instance row written by
`bucket.symbolInstances.emplaceBack` (symbol_layout.ts lines 918-946). -/
structure SymbolInstance where
  anchorX : ℚ
  anchorY : ℚ
  rightJustifiedTextSymbolIndex : ℤ
  centerJustifiedTextSymbolIndex : ℤ
  leftJustifiedTextSymbolIndex : ℤ
  verticalPlacedTextSymbolIndex : ℤ
  placedIconSymbolIndex : ℤ
  verticalPlacedIconSymbolIndex : ℤ
  key : ℕ
  textBoxStartIndex : ℕ
  textBoxEndIndex : ℕ
  verticalTextBoxStartIndex : ℕ
  verticalTextBoxEndIndex : ℕ
  iconBoxStartIndex : ℕ
  iconBoxEndIndex : ℕ
  verticalIconBoxStartIndex : ℕ
  verticalIconBoxEndIndex : ℕ
  featureIndex : ℕ
  numHorizontalGlyphVertices : ℕ
  numVerticalGlyphVertices : ℕ
  numIconVertices : ℕ
  numVerticalIconVertices : ℕ
  useRuntimeCollisionCircles : ℕ
  crossTileID : ℕ
  textBoxScale : ℚ
  collisionCircleDiameter : ℚ
  textAnchorOffsetStartIndex : ℕ
  textAnchorOffsetEndIndex : ℕ
  deriving DecidableEq, Repr

/-- State of one tile bucket as consumed and produced by the layout driver
(the vertex buffers proper are not consumed by any claim; the placed symbol
arrays are modelled by their lengths). -/
structure BucketState where
  collisionBoxArray : List CollisionBox
  symbolInstances : List SymbolInstance
  textAnchorOffsets : List TextAnchorOffsetEntry
  textPlacedSymbolCount : ℕ
  iconPlacedSymbolCount : ℕ
  compareText : List (String × List Anchor)
  deriving DecidableEq, Repr

/-- Per-feature arguments of `addSymbol` that the claims consume (the
remaining arguments — paddings, rotation alignment, offsets — only shape the
box lists already attached to the shapings/icons). -/
structure AddSymbolArgs where
  allowVerticalPlacement : Bool
  orientations : ShapedTextOrientations
  shapedIcon : Option PositionedIcon
  verticallyShapedIcon : Option PositionedIcon
  featureIndex : ℕ
  textBoxScale : ℚ
  layoutTextSize : ℚ
  variableAnchorOffset : Option (List (TextAnchor × ℚ × ℚ))
  deriving DecidableEq, Repr

/-- Outcome of the vertical collision feature block of `addSymbol` (lines
763-772): the two optional vertical collision features and the grown
collision box array. -/
structure VertStep where
  verticalTextCollisionFeature : Option CollisionFeature
  verticalIconCollisionFeature : Option CollisionFeature
  arr : List CollisionBox
  deriving DecidableEq, Repr

/-- Translation of the vertical collision feature block of `addSymbol`: when
vertical placement is allowed and a vertical shaping exists, build its
collision feature, and additionally one for the vertically shaped icon when
present. -/
def addSymbolVerticalFeatures (a : AddSymbolArgs) (arr0 : List CollisionBox) :
    VertStep :=
  match a.orientations.vertical with
  | some verticalShaping =>
    if a.allowVerticalPlacement then
      let cf := mkCollisionFeature arr0 verticalShaping.collisionBoxes
        verticalShaping.collisionCircle
      match a.verticallyShapedIcon with
      | some vIcon =>
        let icf := mkCollisionFeature cf.2 vIcon.collisionBoxes vIcon.collisionCircle
        ⟨some cf.1, some icf.1, icf.2⟩
      | none => ⟨some cf.1, none, cf.2⟩
    else ⟨none, none, arr0⟩
  | none => ⟨none, none, arr0⟩

/-- Outcome of the icon block of `addSymbol` (lines 778-842). -/
structure IconStep where
  iconCollisionFeature : Option CollisionFeature
  arr : List CollisionBox
  numIconVertices : ℕ
  numVerticalIconVertices : ℕ
  placedIconSymbolIndex : ℤ
  verticalPlacedIconSymbolIndex : ℤ
  iconPlacedSymbolCount : ℕ
  deriving DecidableEq, Repr

/-- Translation of the icon block of `addSymbol`: when an icon is shaped,
build its collision feature, append its quads (one placed icon symbol per
`bucket.addSymbols` call), and likewise for the vertically shaped icon's
quads when present. -/
def addSymbolIcon (a : AddSymbolArgs) (arr1 : List CollisionBox)
    (iconPlacedSymbolCount : ℕ) : IconStep :=
  match a.shapedIcon with
  | some shapedIcon =>
    let icf := mkCollisionFeature arr1 shapedIcon.collisionBoxes
      shapedIcon.collisionCircle
    let numIconVertices := shapedIcon.quadCount * 4
    let count1 := iconPlacedSymbolCount + 1
    let placedIconSymbolIndex : ℤ := (count1 : ℤ) - 1
    match a.verticallyShapedIcon with
    | some vIcon =>
      let numVerticalIconVertices := vIcon.quadCount * 4
      let count2 := count1 + 1
      let verticalPlacedIconSymbolIndex : ℤ := (count2 : ℤ) - 1
      ⟨some icf.1, icf.2, numIconVertices, numVerticalIconVertices,
        placedIconSymbolIndex, verticalPlacedIconSymbolIndex, count2⟩
    | none =>
      ⟨some icf.1, icf.2, numIconVertices, 0, placedIconSymbolIndex, -1, count1⟩
  | none => ⟨none, arr1, 0, 0, -1, -1, iconPlacedSymbolCount⟩

/-- State threaded through the justification loop of `addSymbol` (lines
844-866). -/
structure TextLoopState where
  textCollisionFeature : Option CollisionFeature
  collisionBoxArray : List CollisionBox
  key : ℕ
  numHorizontalGlyphVertices : ℕ
  placedTextSymbolIndices : List (String × ℤ)
  textPlacedSymbolCount : ℕ
  deriving DecidableEq, Repr

/-- Translation of the justification loop of `addSymbol`: for each key of
`shapedTextOrientations.horizontal`, build the (single, shared) text
collision feature and the key on the first iteration, add the glyph quads,
and break after a single-line shaping.  A key whose stored value is
`undefined` makes the JavaScript code throw (`shaping.text` /
`shaping.positionedLines` on `undefined`), modelled as `none`. -/
def textSymbolLoop (murmur : String → ℕ) (justificationKeys : List String)
    (horizontal : List (String × Option Shaping)) :
    List String → TextLoopState → Option TextLoopState
  | [], st => some st
  | justification :: rest, st =>
    match jsGet horizontal justification with
    | none => none
    | some none => none
    | some (some shaping) =>
      let st1 :=
        if st.textCollisionFeature.isSome then st
        else
          let cf := mkCollisionFeature st.collisionBoxArray shaping.collisionBoxes
            shaping.collisionCircle
          { st with
            key := murmur shaping.text
            textCollisionFeature := some cf.1
            collisionBoxArray := cf.2 }
      let placementTypes :=
        if shaping.positionedLines.length = 1 then justificationKeys
        else [justification]
      let step := addTextVertices shaping placementTypes
        st1.placedTextSymbolIndices st1.textPlacedSymbolCount
      let st2 := { st1 with
        numHorizontalGlyphVertices := st1.numHorizontalGlyphVertices + step.1
        placedTextSymbolIndices := step.2.1
        textPlacedSymbolCount := step.2.2 }
      if shaping.positionedLines.length = 1 then some st2
      else textSymbolLoop murmur justificationKeys horizontal rest st2

/-- Translation of `getCollisionCircleHeight` (symbol_layout.ts): take the
maximum with the previous height when the feature exists and carries a truthy
(nonzero) circle diameter. -/
def getCollisionCircleHeight (feature : Option CollisionFeature)
    (prevHeight : ℚ) : ℚ :=
  match feature with
  | some cf =>
    match cf.circleDiameter with
    | some d => if d = 0 then prevHeight else max d prevHeight
    | none => prevHeight
  | none => prevHeight

/-- Translation of the vertical glyph vertex block of `addSymbol` (lines
868-872): one `addTextVertices` call for the vertical shaping, placement
type `vertical`. -/
def verticalGlyphStep (o : ShapedTextOrientations) (st : TextLoopState) :
    ℕ × List (String × ℤ) × ℕ :=
  match o.vertical with
  | some verticalShaping =>
    addTextVertices verticalShaping ["vertical"] st.placedTextSymbolIndices
      st.textPlacedSymbolCount
  | none => (0, st.placedTextSymbolIndices, st.textPlacedSymbolCount)

/-- Translation of the tail of `addSymbol` (lines 868-946), building the
symbol instance row that `bucket.symbolInstances.emplaceBack` writes: the
collision box index ranges (falling back to the current array length when a
feature was not built), the runtime collision circle decision, and the
variable anchor offset range. -/
def emplacedInstance (a : AddSymbolArgs) (anchor : Anchor) (b : BucketState)
    (vert : VertStep) (icon : IconStep) (st : TextLoopState) : SymbolInstance :=
  let vg := verticalGlyphStep a.orientations st
  let arrF := st.collisionBoxArray
  let textBoxStartIndex := match st.textCollisionFeature with
    | some cf => cf.boxStartIndex
    | none => arrF.length
  let textBoxEndIndex := match st.textCollisionFeature with
    | some cf => cf.boxEndIndex
    | none => arrF.length
  let verticalTextBoxStartIndex := match vert.verticalTextCollisionFeature with
    | some cf => cf.boxStartIndex
    | none => arrF.length
  let verticalTextBoxEndIndex := match vert.verticalTextCollisionFeature with
    | some cf => cf.boxEndIndex
    | none => arrF.length
  let iconBoxStartIndex := match icon.iconCollisionFeature with
    | some cf => cf.boxStartIndex
    | none => arrF.length
  let iconBoxEndIndex := match icon.iconCollisionFeature with
    | some cf => cf.boxEndIndex
    | none => arrF.length
  let verticalIconBoxStartIndex := match vert.verticalIconCollisionFeature with
    | some cf => cf.boxStartIndex
    | none => arrF.length
  let verticalIconBoxEndIndex := match vert.verticalIconCollisionFeature with
    | some cf => cf.boxEndIndex
    | none => arrF.length
  let d1 := getCollisionCircleHeight st.textCollisionFeature (-1)
  let d2 := getCollisionCircleHeight vert.verticalTextCollisionFeature d1
  let d3 := getCollisionCircleHeight icon.iconCollisionFeature d2
  let d4 := getCollisionCircleHeight vert.verticalIconCollisionFeature d3
  let useRuntimeCollisionCircles : ℕ := if (-1 : ℚ) < d4 then 1 else 0
  let collisionCircleDiameter : ℚ :=
    if (-1 : ℚ) < d4 then d4 * (a.layoutTextSize / ONE_EM) else d4
  let placedIndices := vg.2.1
  let rightIndex : ℤ := match jsGet placedIndices "right" with
    | some v => if 0 ≤ v then v else -1
    | none => -1
  let centerIndex : ℤ := match jsGet placedIndices "center" with
    | some v => if 0 ≤ v then v else -1
    | none => -1
  let leftIndex : ℤ := match jsGet placedIndices "left" with
    | some v => if 0 ≤ v then v else -1
    | none => -1
  let verticalIndex : ℤ := match jsGet placedIndices "vertical" with
    | some v => if v = 0 then -1 else v
    | none => -1
  let tao := addTextVariableAnchorOffsets b.textAnchorOffsets a.variableAnchorOffset
  { anchorX := anchor.x
    anchorY := anchor.y
    rightJustifiedTextSymbolIndex := rightIndex
    centerJustifiedTextSymbolIndex := centerIndex
    leftJustifiedTextSymbolIndex := leftIndex
    verticalPlacedTextSymbolIndex := verticalIndex
    placedIconSymbolIndex := icon.placedIconSymbolIndex
    verticalPlacedIconSymbolIndex := icon.verticalPlacedIconSymbolIndex
    key := st.key
    textBoxStartIndex := textBoxStartIndex
    textBoxEndIndex := textBoxEndIndex
    verticalTextBoxStartIndex := verticalTextBoxStartIndex
    verticalTextBoxEndIndex := verticalTextBoxEndIndex
    iconBoxStartIndex := iconBoxStartIndex
    iconBoxEndIndex := iconBoxEndIndex
    verticalIconBoxStartIndex := verticalIconBoxStartIndex
    verticalIconBoxEndIndex := verticalIconBoxEndIndex
    featureIndex := a.featureIndex
    numHorizontalGlyphVertices := st.numHorizontalGlyphVertices
    numVerticalGlyphVertices := vg.1
    numIconVertices := icon.numIconVertices
    numVerticalIconVertices := icon.numVerticalIconVertices
    useRuntimeCollisionCircles := useRuntimeCollisionCircles
    crossTileID := 0
    textBoxScale := a.textBoxScale
    collisionCircleDiameter := collisionCircleDiameter
    textAnchorOffsetStartIndex := tao.1.1
    textAnchorOffsetEndIndex := tao.1.2 }

/-- Bucket state after `addSymbol` ran to completion: the grown collision box
array, the emplaced symbol instance, the grown text anchor offset array, and
the updated placed symbol counts. -/
def addSymbolFinish (a : AddSymbolArgs) (anchor : Anchor) (b : BucketState)
    (vert : VertStep) (icon : IconStep) (st : TextLoopState) : BucketState :=
  { b with
    collisionBoxArray := st.collisionBoxArray
    symbolInstances := b.symbolInstances ++ [emplacedInstance a anchor b vert icon st]
    textAnchorOffsets :=
      (addTextVariableAnchorOffsets b.textAnchorOffsets a.variableAnchorOffset).2
    textPlacedSymbolCount := (verticalGlyphStep a.orientations st).2.2
    iconPlacedSymbolCount := icon.iconPlacedSymbolCount }

/-- Initial state of the justification loop of `addSymbol` (lines 751-761):
no text collision feature yet, the collision box array as grown by the
vertical and icon collision features, and `key = murmur3('')`. -/
def initialTextLoopState (murmur : String → ℕ) (a : AddSymbolArgs)
    (b : BucketState) : TextLoopState :=
  ⟨none,
    (addSymbolIcon a (addSymbolVerticalFeatures a b.collisionBoxArray).arr
      b.iconPlacedSymbolCount).arr,
    murmur "", 0, [], b.textPlacedSymbolCount⟩

/-- Translation of `addSymbol` (symbol_layout.ts lines 725-947): build the
collision features (vertical text, vertical icon, icon, then text inside the
justification loop), place the icon and text vertex data, and emplace one
symbol instance row.  The sort key range bookkeeping and the line vertex
array only feed arrays no claim consumes and are not modelled.  The result is
`none` when the JavaScript code would throw (the justification loop reaching
a key that holds `undefined`). -/
def addSymbol (murmur : String → ℕ) (a : AddSymbolArgs) (anchor : Anchor)
    (b : BucketState) : Option BucketState :=
  let vert := addSymbolVerticalFeatures a b.collisionBoxArray
  let icon := addSymbolIcon a vert.arr b.iconPlacedSymbolCount
  let justificationKeys := jsKeys a.orientations.horizontal
  match textSymbolLoop murmur justificationKeys a.orientations.horizontal
      justificationKeys (initialTextLoopState murmur a b) with
  | none => none
  | some st => some (addSymbolFinish a anchor b vert icon st)

/-- Translation of `addSymbolAtAnchor` (symbol_layout.ts lines 551-563):
anchors outside the tile bounds `[0, EXTENT)` are filtered out (symbols drawn
across tile boundaries are deduplicated by the adjacent tiles), everything
else is handed to `addSymbol`. -/
def addSymbolAtAnchor (murmur : String → ℕ) (a : AddSymbolArgs)
    (anchor : Anchor) (b : BucketState) : Option BucketState :=
  if anchor.x < 0 ∨ anchor.x ≥ EXTENT ∨ anchor.y < 0 ∨ anchor.y ≥ EXTENT then
    some b
  else addSymbol murmur a anchor b

/-- Safety of the justification loop on a key list: the loop breaks right
after the first single-line shaping, so it completes without throwing exactly
when no key holding `undefined` is visited before a single-line shaping. -/
def textLoopSafe (horizontal : List (String × Option Shaping)) :
    List String → Bool
  | [] => true
  | k :: rest =>
    match jsGet horizontal k with
    | none => false
    | some none => false
    | some (some s) =>
      if s.positionedLines.length = 1 then true else textLoopSafe horizontal rest

/-- Safety of the justification loop of `addSymbol` on the record it iterates
(the records produced by `performSymbolLayout` satisfy this: an `undefined`
value is only ever stored after a single-line shaping was stored). -/
def loopReachesNoUndefined (horizontal : List (String × Option Shaping)) : Bool :=
  textLoopSafe horizontal (jsKeys horizontal)

/-- Translation of the text offset computation in `performSymbolLayout`
(lines 341-364).  `evaluateVariableOffset` lives in `variable_text_anchor.ts`
(not in the analysed slice) and is therefore a parameter; the source calls it
as `evaluateVariableOffset(textAnchor, [radialOffset * ONE_EM,
INVALID_TEXT_OFFSET])`, with the constant sentinel in the second slot
absorbed into the parameter function. -/
def computeTextOffset (evaluateVariableOffset : TextAnchor → ℚ → ℚ × ℚ)
    (variableAnchorOffset : Option (List (TextAnchor × ℚ × ℚ)))
    (textAnchor : TextAnchor) (radialOffset : ℚ)
    (textOffsetProp : ℚ × ℚ) : ℚ × ℚ :=
  if variableAnchorOffset.isSome then (0, 0)
  else if radialOffset ≠ 0 then
    evaluateVariableOffset textAnchor (radialOffset * ONE_EM)
  else (textOffsetProp.1 * ONE_EM, textOffsetProp.2 * ONE_EM)

/-- Circle diameter carried by the text collision feature that `addSymbol`
builds: it is built from the value stored under the first key of
`shapedTextOrientations.horizontal`. -/
def firstHorizontalCircle (a : AddSymbolArgs) : Option ℚ :=
  match a.orientations.horizontal with
  | (_, some s) :: _ => s.collisionCircle
  | _ => none

/-- Circle diameter carried by the vertical text collision feature that
`addSymbol` builds (present only when vertical placement applies). -/
def verticalTextCircle (a : AddSymbolArgs) : Option ℚ :=
  match a.orientations.vertical with
  | some vs => if a.allowVerticalPlacement then vs.collisionCircle else none
  | none => none

/-- Circle diameter carried by the icon collision feature. -/
def iconCircle (a : AddSymbolArgs) : Option ℚ :=
  match a.shapedIcon with
  | some icon => icon.collisionCircle
  | none => none

/-- Circle diameter carried by the vertical icon collision feature (present
only when vertical placement applies and a vertically shaped icon exists). -/
def verticalIconCircle (a : AddSymbolArgs) : Option ℚ :=
  match a.orientations.vertical with
  | some _ =>
    if a.allowVerticalPlacement then
      match a.verticallyShapedIcon with
      | some vIcon => vIcon.collisionCircle
      | none => none
    else none
  | none => none

/-- All circle diameters carried by the collision features `addSymbol` built,
in the order in which `getCollisionCircleHeight` folds over them (text,
vertical text, icon, vertical icon). -/
def builtCircles (a : AddSymbolArgs) : List ℚ :=
  (firstHorizontalCircle a).toList ++ (verticalTextCircle a).toList ++
    (iconCircle a).toList ++ (verticalIconCircle a).toList

/-- Choice of the text shaping used for the `addFeature` gate in
`performSymbolLayout` (line 462): the default horizontal shaping, or else the
vertical one. -/
def shapedTextOf (o : ShapedTextOrientations) : Option Shaping :=
  match getDefaultHorizontalShaping o.horizontal with
  | some s => some s
  | none => o.vertical

/-- Translation of the gate in `performSymbolLayout` (line 464): a feature
reaches `addFeature` exactly when it has a shaped text or a shaped icon. -/
def featureReachesAddFeature (o : ShapedTextOrientations)
    (shapedIcon : Option PositionedIcon) : Bool :=
  (shapedTextOf o).isSome || shapedIcon.isSome

/-- Per-feature inputs of the layout pass.  The function-valued fields stand
for the computations of modules not in the analysed slice (`shapeText` of
`shaping.ts` at the various call sites, `fitIconToText`, and the anchor
generation of `get_anchors.ts` / `clip_line.ts` / the subdivision, whose
output is the candidate anchor list); per the spec they are pure functions of
their inputs. -/
structure FeatureInput where
  hasText : Bool
  shapeHorizontal : TextAnchor → TextJustify → Option Shaping
  shapeVerticalPoint : TextAnchor → Option Shaping
  shapeVerticalLine : TextAnchor → TextJustify → Option Shaping
  allowsVerticalWritingMode : Bool
  textJustifyProp : TextJustify
  textAnchor : TextAnchor
  variableAnchorOffset : Option (List (TextAnchor × ℚ × ℚ))
  shapedIcon : Option PositionedIcon
  iconTextFitNone : Bool
  fitIconToTextFn : PositionedIcon → Shaping → PositionedIcon
  symbolPlacementLine : Bool
  anchors : List Anchor
  featureIndex : ℕ
  textBoxScale : ℚ
  layoutTextSize : ℚ

/-- Layer- and bucket-level inputs of the layout pass. -/
structure LayoutInputs where
  allowVerticalPlacement : Bool
  textAlongLine : Bool
  keepUpright : Bool
  symbolSpacing : ℚ
  tilePixelRatio : ℚ
  murmur : String → ℕ
  features : List FeatureInput

/-- Translation of the text shaping portion of `performSymbolLayout` (lines
335-436): build the horizontal justification record and the vertical shaping
for one feature. -/
def buildShapedTextOrientations (L : LayoutInputs) (f : FeatureInput) :
    ShapedTextOrientations :=
  if f.hasText then
    let textJustify := if L.textAlongLine then TextJustify.center else f.textJustifyProp
    let addVertical := fun (o : ShapedTextOrientations) =>
      if L.allowVerticalPlacement && f.allowsVerticalWritingMode then
        { o with vertical := f.shapeVerticalPoint f.textAnchor }
      else o
    if !L.textAlongLine && f.variableAnchorOffset.isSome then
      let justifications := justificationsFor textJustify (f.variableAnchorOffset.getD [])
      let horizontal :=
        justificationLoop (fun j => f.shapeHorizontal TextAnchor.center j)
          justifications false []
      addVertical ⟨horizontal, none⟩
    else
      let textJustify2 :=
        if textJustify = TextJustify.auto then getAnchorJustification f.textAnchor
        else textJustify
      let horizontal0 : List (String × Option Shaping) :=
        match f.shapeHorizontal f.textAnchor textJustify2 with
        | some s => jsSet [] textJustify2.key (some s)
        | none => []
      let o1 := addVertical ⟨horizontal0, none⟩
      if f.allowsVerticalWritingMode && L.textAlongLine && L.keepUpright then
        { o1 with vertical := f.shapeVerticalLine f.textAnchor textJustify2 }
      else o1
  else ⟨[], none⟩

/-- Line-placement anchor loop of `addFeature` (lines 565-585): consult the
repeat-distance state only when a default horizontal shaping exists, then
hand surviving anchors to `addSymbolAtAnchor`. -/
def lineAnchorFold (murmur : String → ℕ) (args : AddSymbolArgs)
    (repeatDistance : ℚ) (shapedText : Option Shaping) :
    List Anchor → BucketState → Option BucketState
  | [], b => some b
  | anchor :: rest, b =>
    match shapedText with
    | none =>
      match addSymbolAtAnchor murmur args anchor b with
      | none => none
      | some b2 => lineAnchorFold murmur args repeatDistance shapedText rest b2
    | some s =>
      let res := anchorIsTooClose b.compareText s.text repeatDistance anchor
      if res.1 then
        lineAnchorFold murmur args repeatDistance shapedText rest b
      else
        match addSymbolAtAnchor murmur args anchor { b with compareText := res.2 } with
        | none => none
        | some b2 => lineAnchorFold murmur args repeatDistance shapedText rest b2

/-- Anchor loop of `addFeature` for the non-line placements (line-center,
polygon, line string, point): every candidate anchor goes straight to
`addSymbolAtAnchor`. -/
def plainAnchorFold (murmur : String → ℕ) (args : AddSymbolArgs) :
    List Anchor → BucketState → Option BucketState
  | [], b => some b
  | anchor :: rest, b =>
    match addSymbolAtAnchor murmur args anchor b with
    | none => none
    | some b2 => plainAnchorFold murmur args rest b2

/-- Translation of `addFeature` (symbol_layout.ts lines 495-629): fit the
icon to the text when requested, then run the per-placement anchor loop. -/
def addFeatureModel (L : LayoutInputs) (f : FeatureInput)
    (o : ShapedTextOrientations) (b : BucketState) : Option BucketState :=
  let defaultHorizontalShaping := getDefaultHorizontalShaping o.horizontal
  let verticallyShapedIcon :=
    match f.shapedIcon with
    | some icon =>
      if f.iconTextFitNone then none
      else if L.allowVerticalPlacement then
        (o.vertical.map (fun vs => f.fitIconToTextFn icon vs))
      else none
    | none => none
  let shapedIcon2 :=
    match f.shapedIcon with
    | some icon =>
      if f.iconTextFitNone then some icon
      else
        match defaultHorizontalShaping with
        | some dh => some (f.fitIconToTextFn icon dh)
        | none => some icon
    | none => none
  let args : AddSymbolArgs := {
    allowVerticalPlacement := L.allowVerticalPlacement
    orientations := o
    shapedIcon := shapedIcon2
    verticallyShapedIcon := verticallyShapedIcon
    featureIndex := f.featureIndex
    textBoxScale := f.textBoxScale
    layoutTextSize := f.layoutTextSize
    variableAnchorOffset := f.variableAnchorOffset }
  if f.symbolPlacementLine then
    lineAnchorFold L.murmur args
      (textRepeatDistance L.symbolSpacing L.tilePixelRatio)
      defaultHorizontalShaping f.anchors b
  else
    plainAnchorFold L.murmur args f.anchors b

/-- Gate of `performSymbolLayout` applied to the shaped feature (lines
462-466): call `addFeature` only when a shaped text or shaped icon exists. -/
def processShapedFeature (L : LayoutInputs) (f : FeatureInput)
    (o : ShapedTextOrientations) (b : BucketState) : Option BucketState :=
  if featureReachesAddFeature o f.shapedIcon then addFeatureModel L f o b
  else some b

/-- One iteration of the feature loop of `performSymbolLayout`. -/
def processFeature (L : LayoutInputs) (f : FeatureInput) (b : BucketState) :
    Option BucketState :=
  processShapedFeature L f (buildShapedTextOrientations L f) b

/-- Feature loop of `performSymbolLayout` (the features of the bucket are
processed strictly in order, threading the bucket state). -/
def layoutFeatures (L : LayoutInputs) :
    List FeatureInput → BucketState → Option BucketState
  | [], b => some b
  | f :: rest, b =>
    match processFeature L f b with
    | none => none
    | some b2 => layoutFeatures L rest b2

/-- Translation of `performSymbolLayout` at the bucket level: the pass first
resets every piece of bucket state it consults (`createArrays()`,
`compareText = {}`, lines 85-90), so it starts from the empty bucket state
and is a pure function of its inputs. -/
def performSymbolLayoutModel (L : LayoutInputs) : Option BucketState :=
  layoutFeatures L L.features ⟨[], [], [], 0, 0, []⟩

/-- One step of the collision circle fold, phrased over the optional circle
diameter a collision feature carries (mirrors `getCollisionCircleHeight` with
the feature's existence already resolved). -/
def circStep (o : Option ℚ) (p : ℚ) : ℚ :=
  match o with
  | some d => if d = 0 then p else max d p
  | none => p

/-- Fold of `circStep` over a list of circle diameters. -/
def circFold (l : List ℚ) (p : ℚ) : ℚ :=
  l.foldl (fun acc d => if d = 0 then acc else max d acc) p

/-- Separation property of an anchor list: no two of its anchors are within
the repeat distance of each other. -/
def separated (d : ℚ) (l : List Anchor) : Prop :=
  List.Pairwise (fun x y => distLt x y d = false) l

/-- Separation property of the whole `compareText` state. -/
def compareTextSeparated (d : ℚ) (ct : List (String × List Anchor)) : Prop :=
  ∀ t l, jsGet ct t = some l → separated d l

/-- Concrete single-line shaping used to evaluate the justification re-use
branch on a failing input. -/
def singleLineShaping : Shaping :=
  ⟨"A", [⟨2⟩], false, [⟨0, 0, 1, 1⟩], none⟩

/-- Concrete feature input used to instantiate the layout pass in witnesses. -/
def sampleFeature : FeatureInput where
  hasText := true
  shapeHorizontal := fun _ _ => some singleLineShaping
  shapeVerticalPoint := fun _ => none
  shapeVerticalLine := fun _ _ => none
  allowsVerticalWritingMode := false
  textJustifyProp := TextJustify.center
  textAnchor := TextAnchor.center
  variableAnchorOffset := none
  shapedIcon := some ⟨1, [⟨0, 0, 2, 2⟩], none⟩
  iconTextFitNone := true
  fitIconToTextFn := fun i _ => i
  symbolPlacementLine := false
  anchors := [⟨10, 20, 0⟩]
  featureIndex := 0
  textBoxScale := 1
  layoutTextSize := 16

/-- Concrete layout inputs used to instantiate the layout pass in witnesses. -/
def sampleLayoutInputs : LayoutInputs where
  allowVerticalPlacement := false
  textAlongLine := false
  keepUpright := false
  symbolSpacing := 250
  tilePixelRatio := 2
  murmur := String.length
  features := [sampleFeature]

/-- Empty bucket state (as produced by `createArrays()` plus the resets at
the start of `performSymbolLayout`). -/
def emptyBucketState : BucketState := ⟨[], [], [], 0, 0, []⟩

/-- Concrete feature input with neither text nor icon, used in witnesses. -/
def emptyFeature : FeatureInput where
  hasText := false
  shapeHorizontal := fun _ _ => none
  shapeVerticalPoint := fun _ => none
  shapeVerticalLine := fun _ _ => none
  allowsVerticalWritingMode := false
  textJustifyProp := TextJustify.center
  textAnchor := TextAnchor.center
  variableAnchorOffset := none
  shapedIcon := none
  iconTextFitNone := true
  fitIconToTextFn := fun i _ => i
  symbolPlacementLine := false
  anchors := [⟨1, 1, 0⟩]
  featureIndex := 0
  textBoxScale := 1
  layoutTextSize := 16

/-- Concrete icon-only `addSymbol` arguments used in witnesses. -/
def sampleIconOnlyArgs : AddSymbolArgs :=
  ⟨false, ⟨[], none⟩, some ⟨1, [⟨0, 0, 2, 2⟩], none⟩, none, 0, 1, 16, none⟩

/-- Concrete `addSymbol` arguments with a single-line text shaping used in
witnesses. -/
def sampleTextArgs : AddSymbolArgs :=
  ⟨false, ⟨[("center", some singleLineShaping)], none⟩, none, none, 0, 1, 16, none⟩

/-- Concrete `addSymbol` arguments whose icon collision feature carries a
circle diameter, used in witnesses. -/
def sampleCircleArgs : AddSymbolArgs :=
  ⟨false, ⟨[], none⟩, some ⟨1, [], some 10⟩, none, 0, 1, 16, none⟩

/-- Circle diameter carried by an optional collision feature (absent features
carry none). -/
def featureCircle (f : Option CollisionFeature) : Option ℚ :=
  match f with
  | some cf => cf.circleDiameter
  | none => none

/-- Reading a property just written returns the written value. -/
theorem jsGet_jsSet_self {α : Type} (o : List (String × α)) (k : String) (v : α) :
    jsGet (jsSet o k v) k = some v := by
  induction o with
  | nil => simp [jsGet, jsSet]
  | cons kv rest ih =>
    by_cases hk : kv.1 = k
    · simp [jsGet, jsSet, hk]
    · simpa [jsGet, jsSet, hk] using ih

/-- Writing one property leaves the others unchanged. -/
theorem jsGet_jsSet_other {α : Type} (o : List (String × α)) (k k2 : String)
    (v : α) (h : k ≠ k2) : jsGet (jsSet o k v) k2 = jsGet o k2 := by
  induction o with
  | nil => simp [jsGet, jsSet, h]
  | cons kv rest ih =>
    by_cases hk : kv.1 = k
    · simp [jsGet, jsSet, hk, h]
    · by_cases hk2 : kv.1 = k2
      · simp [jsGet, jsSet, hk, hk2, Ne.symm h]
      · simpa [jsGet, jsSet, hk, hk2] using ih

/-- Squared distance is symmetric. -/
theorem distSq_comm (a b : Anchor) : distSq a b = distSq b a := by
  unfold distSq; ring

/-- The distance comparison is symmetric in the two anchors. -/
theorem distLt_comm (a b : Anchor) (r : ℚ) : distLt a b r = distLt b a r := by
  unfold distLt
  rw [distSq_comm]

/-- Totality of the justification loop under loop safety: the JavaScript code
does not throw. -/
theorem textSymbolLoop_total (m : String → ℕ) (keys : List String)
    (horizontal : List (String × Option Shaping)) :
    ∀ (ks : List String) (st : TextLoopState),
      textLoopSafe horizontal ks = true →
      ∃ st2, textSymbolLoop m keys horizontal ks st = some st2 := by
  intro ks
  induction ks with
  | nil => intro st _; exact ⟨st, rfl⟩
  | cons k rest ih =>
    intro st h
    cases hj : jsGet horizontal k with
    | none => simp [textLoopSafe, hj] at h
    | some v =>
      cases v with
      | none => simp [textLoopSafe, hj] at h
      | some s =>
        simp only [textLoopSafe, hj] at h
        simp only [textSymbolLoop, hj]
        by_cases hsl : s.positionedLines.length = 1
        · simp [hsl]
        · simp only [hsl, if_false] at h ⊢
          exact ih _ h

/-- Preservation: once the text collision feature exists, later iterations of
the justification loop change neither the collision box array, nor the text
collision feature, nor the key. -/
theorem textSymbolLoop_preserve (m : String → ℕ) (keys : List String)
    (horizontal : List (String × Option Shaping)) :
    ∀ (ks : List String) (st st2 : TextLoopState),
      st.textCollisionFeature.isSome = true →
      textSymbolLoop m keys horizontal ks st = some st2 →
      st2.collisionBoxArray = st.collisionBoxArray ∧
      st2.textCollisionFeature = st.textCollisionFeature ∧
      st2.key = st.key := by
  intro ks
  induction ks with
  | nil =>
    intro st st2 _ hrun
    simp only [textSymbolLoop, Option.some.injEq] at hrun
    subst hrun; exact ⟨rfl, rfl, rfl⟩
  | cons k rest ih =>
    intro st st2 hsome hrun
    cases hj : jsGet horizontal k with
    | none => simp [textSymbolLoop, hj] at hrun
    | some v =>
      cases v with
      | none => simp [textSymbolLoop, hj] at hrun
      | some s =>
        simp only [textSymbolLoop, hj, hsome, if_true] at hrun
        by_cases hsl : s.positionedLines.length = 1
        · simp only [hsl, if_true, Option.some.injEq] at hrun
          subst hrun
          exact ⟨rfl, rfl, rfl⟩
        · simp only [hsl, if_false] at hrun
          obtain ⟨h1, h2, h3⟩ := ih _ st2 (by exact hsome) hrun
          exact ⟨h1, h2, h3⟩

/-- First step: starting without a text collision feature, a successful run
of the justification loop either had no keys to visit (and changed nothing),
or built the text collision feature, the collision boxes and the key from
the first visited shaping. -/
theorem textSymbolLoop_start (m : String → ℕ) (keys : List String)
    (horizontal : List (String × Option Shaping))
    (ks : List String) (st st2 : TextLoopState)
    (hnone : st.textCollisionFeature = none)
    (hrun : textSymbolLoop m keys horizontal ks st = some st2) :
    (ks = [] ∧ st2 = st) ∨
    (∃ k rest s, ks = k :: rest ∧ jsGet horizontal k = some (some s) ∧
      st2.textCollisionFeature = some ⟨st.collisionBoxArray.length,
        st.collisionBoxArray.length + s.collisionBoxes.length, s.collisionCircle⟩ ∧
      st2.collisionBoxArray = st.collisionBoxArray ++ s.collisionBoxes ∧
      st2.key = m s.text) := by
  cases ks with
  | nil =>
    left
    simp only [textSymbolLoop, Option.some.injEq] at hrun
    exact ⟨rfl, hrun.symm⟩
  | cons k rest =>
    right
    cases hj : jsGet horizontal k with
    | none => simp [textSymbolLoop, hj] at hrun
    | some v =>
      cases v with
      | none => simp [textSymbolLoop, hj] at hrun
      | some s =>
        refine ⟨k, rest, s, rfl, hj, ?_⟩
        simp only [textSymbolLoop, hj, hnone, Option.isSome_none,
          Bool.false_eq_true, if_false] at hrun
        by_cases hsl : s.positionedLines.length = 1
        · simp only [hsl, if_true, Option.some.injEq] at hrun
          subst hrun
          exact ⟨rfl, rfl, rfl⟩
        · simp only [hsl, if_false] at hrun
          obtain ⟨h1, h2, h3⟩ :=
            textSymbolLoop_preserve m keys horizontal rest _ st2 (by exact rfl) hrun
          exact ⟨h2.trans rfl, h1.trans rfl, h3.trans rfl⟩

/-- Expressing a completed `addSymbol` run through `addSymbolFinish`. -/
theorem addSymbol_eq_finish (m : String → ℕ) (a : AddSymbolArgs)
    (anchor : Anchor) (b : BucketState) (st : TextLoopState)
    (hloop : textSymbolLoop m (jsKeys a.orientations.horizontal)
      a.orientations.horizontal (jsKeys a.orientations.horizontal)
      (initialTextLoopState m a b) = some st) :
    addSymbol m a anchor b = some (addSymbolFinish a anchor b
      (addSymbolVerticalFeatures a b.collisionBoxArray)
      (addSymbolIcon a (addSymbolVerticalFeatures a b.collisionBoxArray).arr
        b.iconPlacedSymbolCount) st) := by
  simp only [addSymbol, hloop]

/-- Under loop safety, `addSymbol` succeeds and appends exactly one symbol
instance to the bucket. -/
theorem addSymbol_success (m : String → ℕ) (a : AddSymbolArgs)
    (anchor : Anchor) (b : BucketState)
    (h : loopReachesNoUndefined a.orientations.horizontal = true) :
    ∃ c inst, addSymbol m a anchor b = some c ∧
      c.symbolInstances = b.symbolInstances ++ [inst] := by
  obtain ⟨st, hloop⟩ := textSymbolLoop_total m (jsKeys a.orientations.horizontal)
    a.orientations.horizontal (jsKeys a.orientations.horizontal)
    (initialTextLoopState m a b) h
  exact ⟨_, _, addSymbol_eq_finish m a anchor b st hloop, rfl⟩

/-- C10: a symbol instance whose feature has no horizontal text shaping keeps
the initial duplicate-suppression key `murmur3('')` (the justification loop
that would overwrite it never runs), so any two textless symbol instances of
a bucket share one identical key. -/
theorem textless_symbol_key_is_murmur_of_empty
    (m : String → ℕ) (a1 a2 : AddSymbolArgs) (anchor1 anchor2 : Anchor)
    (b1 b2 : BucketState)
    (h1 : a1.orientations.horizontal = [])
    (h2 : a2.orientations.horizontal = []) :
    ∃ c1 i1 c2 i2,
      addSymbol m a1 anchor1 b1 = some c1 ∧
      c1.symbolInstances = b1.symbolInstances ++ [i1] ∧ i1.key = m "" ∧
      addSymbol m a2 anchor2 b2 = some c2 ∧
      c2.symbolInstances = b2.symbolInstances ++ [i2] ∧ i2.key = m "" ∧
      i1.key = i2.key := by
  have hl1 : textSymbolLoop m (jsKeys a1.orientations.horizontal)
      a1.orientations.horizontal (jsKeys a1.orientations.horizontal)
      (initialTextLoopState m a1 b1) = some (initialTextLoopState m a1 b1) := by
    rw [h1]; rfl
  have hl2 : textSymbolLoop m (jsKeys a2.orientations.horizontal)
      a2.orientations.horizontal (jsKeys a2.orientations.horizontal)
      (initialTextLoopState m a2 b2) = some (initialTextLoopState m a2 b2) := by
    rw [h2]; rfl
  refine ⟨_, _, _, _, addSymbol_eq_finish m a1 anchor1 b1 _ hl1, rfl, rfl,
    addSymbol_eq_finish m a2 anchor2 b2 _ hl2, rfl, rfl, rfl⟩

/-- Witness for C10 at concrete icon-only inputs. -/
theorem textless_symbol_key_is_murmur_of_empty_witness :
    ∃ c1 i1 c2 i2,
      addSymbol String.length sampleIconOnlyArgs ⟨10, 20, 0⟩ emptyBucketState = some c1 ∧
      c1.symbolInstances = emptyBucketState.symbolInstances ++ [i1] ∧
      i1.key = String.length "" ∧
      addSymbol String.length sampleIconOnlyArgs ⟨30, 40, 0⟩ emptyBucketState = some c2 ∧
      c2.symbolInstances = emptyBucketState.symbolInstances ++ [i2] ∧
      i2.key = String.length "" ∧
      i1.key = i2.key :=
  textless_symbol_key_is_murmur_of_empty String.length sampleIconOnlyArgs
    sampleIconOnlyArgs ⟨10, 20, 0⟩ ⟨30, 40, 0⟩ emptyBucketState emptyBucketState
    rfl rfl

/-- C2: `addSymbolAtAnchor` emits a symbol instance exactly when the anchor
lies in `[0, EXTENT)` in both coordinates; an anchor at `x = EXTENT` or
`y = EXTENT` is filtered out, an anchor at `x = EXTENT - 1` with `y` in range
is accepted. -/
theorem anchor_bounds_filter (m : String → ℕ) (a : AddSymbolArgs)
    (anchor : Anchor) (b : BucketState)
    (h : loopReachesNoUndefined a.orientations.horizontal = true) :
    (∃ c, addSymbolAtAnchor m a anchor b = some c ∧
      c.symbolInstances.length = b.symbolInstances.length +
        (if 0 ≤ anchor.x ∧ anchor.x < EXTENT ∧ 0 ≤ anchor.y ∧ anchor.y < EXTENT
          then 1 else 0)) ∧
    (anchor.x = EXTENT ∨ anchor.y = EXTENT →
      addSymbolAtAnchor m a anchor b = some b) ∧
    (anchor.x = EXTENT - 1 → 0 ≤ anchor.y → anchor.y < EXTENT →
      ∃ c, addSymbolAtAnchor m a anchor b = some c ∧
        c.symbolInstances.length = b.symbolInstances.length + 1) := by
  by_cases hg : anchor.x < 0 ∨ anchor.x ≥ EXTENT ∨ anchor.y < 0 ∨ anchor.y ≥ EXTENT
  · have hni : ¬(0 ≤ anchor.x ∧ anchor.x < EXTENT ∧ 0 ≤ anchor.y ∧ anchor.y < EXTENT) := by
      rcases hg with hx | hx | hy | hy <;>
        (intro hc; obtain ⟨c1, c2, c3, c4⟩ := hc; linarith)
    refine ⟨⟨b, by simp [addSymbolAtAnchor, hg], by simp [hni]⟩,
      fun _ => by simp [addSymbolAtAnchor, hg], ?_⟩
    intro hx1 hy0 hyE
    exfalso
    rcases hg with hx | hx | hy | hy
    · rw [hx1] at hx; norm_num [EXTENT] at hx
    · rw [hx1] at hx; norm_num [EXTENT] at hx
    · linarith
    · linarith
  · have hg2 := hg
    push_neg at hg2
    obtain ⟨hx0, hxE, hy0, hyE⟩ := hg2
    have hi : 0 ≤ anchor.x ∧ anchor.x < EXTENT ∧ 0 ≤ anchor.y ∧ anchor.y < EXTENT :=
      ⟨hx0, hxE, hy0, hyE⟩
    obtain ⟨c, inst, hc, hinst⟩ := addSymbol_success m a anchor b h
    have hAt : addSymbolAtAnchor m a anchor b = some c := by
      simp only [addSymbolAtAnchor]
      rw [if_neg hg]
      exact hc
    refine ⟨⟨c, hAt, by simp [hinst, hi]⟩, ?_, ?_⟩
    · rintro (hx | hy)
      · exact absurd hxE (by rw [hx]; exact lt_irrefl EXTENT)
      · exact absurd hyE (by rw [hy]; exact lt_irrefl EXTENT)
    · intro _ _ _
      exact ⟨c, hAt, by simp [hinst]⟩

/-- Witness for C2 at the concrete anchor `(EXTENT - 1, 5)`. -/
theorem anchor_bounds_filter_witness :
    ∃ c, addSymbolAtAnchor String.length sampleIconOnlyArgs ⟨EXTENT - 1, 5, 0⟩
        emptyBucketState = some c ∧
      c.symbolInstances.length = emptyBucketState.symbolInstances.length + 1 :=
  (anchor_bounds_filter String.length sampleIconOnlyArgs ⟨EXTENT - 1, 5, 0⟩
    emptyBucketState rfl).2.2 rfl (by norm_num) (by norm_num [EXTENT])

/-- C5 counterexample: the claim sends every anchor other than `left` and
`right` to `center`, but the code sends `top-left` (which is neither the
value `left` nor the value `right`) to `left`. -/
theorem getAnchorJustification_topLeft_not_center :
    getAnchorJustification TextAnchor.topLeft = TextJustify.left ∧
    TextJustify.left ≠ TextJustify.center :=
  ⟨rfl, by decide⟩

/-- C5 amended: `getAnchorJustification` maps every variable text anchor by
its horizontal side: the right-side anchors (`right`, `top-right`,
`bottom-right`) to `right`, the left-side anchors (`left`, `top-left`,
`bottom-left`) to `left`, and all others to `center`. -/
theorem getAnchorJustification_by_side (a : TextAnchor) :
    getAnchorJustification a = anchorJustificationBySide a := by
  cases a <;> rfl

/-- Witness for the amended C5 at the concrete anchor `top-right`. -/
theorem getAnchorJustification_by_side_witness :
    getAnchorJustification TextAnchor.topRight =
      anchorJustificationBySide TextAnchor.topRight :=
  getAnchorJustification_by_side TextAnchor.topRight

/-- C7: with no variable anchor offset and a nonzero evaluated
`text-radial-offset`, the text offset comes from `evaluateVariableOffset` at
`radialOffset * ONE_EM` and is independent of the evaluated `text-offset`;
the `text-offset` value is used only when the radial offset is zero. -/
theorem radial_offset_wins (f : TextAnchor → ℚ → ℚ × ℚ) (anchor : TextAnchor)
    (r : ℚ) (p q : ℚ × ℚ) (h : r ≠ 0) :
    computeTextOffset f none anchor r p = f anchor (r * ONE_EM) ∧
    computeTextOffset f none anchor r p = computeTextOffset f none anchor r q ∧
    computeTextOffset f none anchor 0 p = (p.1 * ONE_EM, p.2 * ONE_EM) := by
  refine ⟨?_, ?_, ?_⟩ <;> simp [computeTextOffset, h]

/-- Witness for C7 at concrete inputs. -/
theorem radial_offset_wins_witness :
    computeTextOffset (fun _ x => (x, (0 : ℚ))) none TextAnchor.top 1 (2, 3) =
      (fun (_ : TextAnchor) (x : ℚ) => (x, (0 : ℚ))) TextAnchor.top (1 * ONE_EM) ∧
    computeTextOffset (fun _ x => (x, (0 : ℚ))) none TextAnchor.top 1 (2, 3) =
      computeTextOffset (fun _ x => (x, (0 : ℚ))) none TextAnchor.top 1 (4, 5) ∧
    computeTextOffset (fun _ x => (x, (0 : ℚ))) none TextAnchor.top 0 (2, 3) =
      ((2 : ℚ) * ONE_EM, (3 : ℚ) * ONE_EM) :=
  radial_offset_wins (fun _ x => (x, 0)) TextAnchor.top 1 (2, 3) (4, 5) (by norm_num)

/-- C1: evaluation of the justification shaping loop on a failing input.
With justifications `[left, center]` and every justification shaping to the
same single-line shaping, the re-use branch assigns
`shapedTextOrientations.horizontal[0]` to the `center` entry; the property
name "0" is never present in the record, so the entry receives `undefined`
(modelled `none`) and not the single-line shaping the spec (and the inline
comment) promise. -/
theorem single_line_reuse_assigns_undefined :
    justificationLoop (fun _ => some singleLineShaping)
        [TextJustify.left, TextJustify.center] false [] =
      [("left", some singleLineShaping), ("center", none)] ∧
    jsGet (justificationLoop (fun _ => some singleLineShaping)
        [TextJustify.left, TextJustify.center] false []) "center" = some none ∧
    (some none : Option (Option Shaping)) ≠ some (some singleLineShaping) := by
  refine ⟨by decide, by decide, by decide⟩

/-- The boolean result of `anchorIsTooClose` is true exactly when a recorded
anchor for the identical text is within the repeat distance. -/
theorem anchorIsTooClose_true_iff (ct : List (String × List Anchor))
    (t : String) (d : ℚ) (a : Anchor) :
    (anchorIsTooClose ct t d a).1 = true ↔
      ∃ other ∈ (jsGet ct t).getD [], distLt a other d = true := by
  unfold anchorIsTooClose
  cases hj : jsGet ct t with
  | none => simp
  | some others =>
    by_cases hA : others.any (fun other => distLt a other d) = true
    · simp only [hA, if_true, Option.getD_some]
      simpa [List.any_eq_true] using hA
    · simp only [Bool.not_eq_true] at hA
      simp only [hA, Bool.false_eq_true, if_false, Option.getD_some]
      simp only [List.any_eq_false] at hA
      constructor
      · intro hfalse; cases hfalse
      · rintro ⟨other, hmem, hlt⟩
        exact absurd hlt (by simpa using hA other hmem)

/-- When `anchorIsTooClose` reports a collision it records nothing. -/
theorem anchorIsTooClose_true_state (ct : List (String × List Anchor))
    (t : String) (d : ℚ) (a : Anchor)
    (h : (anchorIsTooClose ct t d a).1 = true) :
    (anchorIsTooClose ct t d a).2 = ct := by
  cases hj : jsGet ct t with
  | none => simp [anchorIsTooClose, hj] at h
  | some others =>
    simp only [anchorIsTooClose, hj] at h ⊢
    by_cases hA : others.any (fun other => distLt a other d) = true
    · simp [hA]
    · simp only [Bool.not_eq_true] at hA
      simp [hA] at h

/-- When `anchorIsTooClose` reports no collision it appends the anchor to the
record for its text. -/
theorem anchorIsTooClose_false_lookup (ct : List (String × List Anchor))
    (t : String) (d : ℚ) (a : Anchor)
    (h : (anchorIsTooClose ct t d a).1 = false) :
    jsGet (anchorIsTooClose ct t d a).2 t =
      some ((jsGet ct t).getD [] ++ [a]) := by
  cases hj : jsGet ct t with
  | none => simp [anchorIsTooClose, hj, jsGet_jsSet_self]
  | some others =>
    simp only [anchorIsTooClose, hj] at h ⊢
    by_cases hA : others.any (fun other => distLt a other d) = true
    · simp [hA] at h
    · simp only [Bool.not_eq_true] at hA
      simp [hA, jsGet_jsSet_self]

/-- `anchorIsTooClose` leaves the records of every other text unchanged. -/
theorem anchorIsTooClose_lookup_other (ct : List (String × List Anchor))
    (t t2 : String) (d : ℚ) (a : Anchor) (h : t ≠ t2) :
    jsGet (anchorIsTooClose ct t d a).2 t2 = jsGet ct t2 := by
  cases hj : jsGet ct t with
  | none => simp [anchorIsTooClose, hj, jsGet_jsSet_other _ _ _ _ h]
  | some others =>
    simp only [anchorIsTooClose, hj]
    by_cases hA : others.any (fun other => distLt a other d) = true
    · simp [hA]
    · simp only [Bool.not_eq_true] at hA
      simp [hA, jsGet_jsSet_other _ _ _ _ h]

/-- `anchorIsTooClose` preserves separation of the recorded anchors: it only
appends an anchor after checking it against every recorded anchor of the
same text. -/
theorem anchorIsTooClose_separated (d : ℚ) (ct : List (String × List Anchor))
    (t : String) (a : Anchor) (h : compareTextSeparated d ct) :
    compareTextSeparated d (anchorIsTooClose ct t d a).2 := by
  intro t2 l2 hl2
  cases hj : jsGet ct t with
  | none =>
    simp only [anchorIsTooClose, hj] at hl2
    by_cases ht : t = t2
    · subst ht
      rw [jsGet_jsSet_self] at hl2
      cases hl2
      exact List.pairwise_singleton _ _
    · rw [jsGet_jsSet_other _ _ _ _ ht] at hl2
      exact h _ _ hl2
  | some others =>
    simp only [anchorIsTooClose, hj] at hl2
    by_cases hA : others.any (fun other => distLt a other d) = true
    · rw [hA] at hl2
      simp only [if_true] at hl2
      exact h _ _ hl2
    · simp only [Bool.not_eq_true] at hA
      rw [hA] at hl2
      simp only [Bool.false_eq_true, if_false] at hl2
      by_cases ht : t = t2
      · subst ht
        rw [jsGet_jsSet_self] at hl2
        cases hl2
        have hPrev : separated d others := h _ _ hj
        have hFar : ∀ x ∈ others, distLt a x d = false := by
          simpa using List.any_eq_false.mp hA
        refine List.pairwise_append.mpr ⟨hPrev, List.pairwise_singleton _ _, ?_⟩
        rintro x hx y hy
        simp only [List.mem_singleton] at hy
        subst hy
        rw [distLt_comm]
        exact hFar x hx
      · rw [jsGet_jsSet_other _ _ _ _ ht] at hl2
        exact h _ _ hl2

/-- The final `compareText` of a candidate run only depends on the threaded
states. -/
theorem runAnchors_fst (d : ℚ) (t : String) (a : Anchor)
    (rest : List (String × Anchor)) (ct : List (String × List Anchor)) :
    (runAnchors d ((t, a) :: rest) ct).1 =
      (runAnchors d rest (anchorIsTooClose ct t d a).2).1 := by
  simp only [runAnchors]
  split_ifs <;> rfl

/-- A whole candidate run preserves separation of the recorded anchors. -/
theorem runAnchors_separated (d : ℚ) :
    ∀ (cands : List (String × Anchor)) (ct : List (String × List Anchor)),
      compareTextSeparated d ct →
      compareTextSeparated d (runAnchors d cands ct).1 := by
  intro cands
  induction cands with
  | nil => intro ct h; exact h
  | cons p rest ih =>
    intro ct h
    obtain ⟨t, a⟩ := p
    rw [runAnchors_fst]
    exact ih _ (anchorIsTooClose_separated d ct t a h)

/-- The anchors recorded for a text after a candidate run are the previously
recorded ones followed by exactly the accepted candidates carrying that
text. -/
theorem runAnchors_lookup (d : ℚ) (t : String) :
    ∀ (cands : List (String × Anchor)) (ct : List (String × List Anchor)),
      (jsGet (runAnchors d cands ct).1 t).getD [] =
        (jsGet ct t).getD [] ++
          ((runAnchors d cands ct).2.filter (fun p => p.1 = t)).map Prod.snd := by
  intro cands
  induction cands with
  | nil => intro ct; simp [runAnchors]
  | cons p rest ih =>
    intro ct
    obtain ⟨t2, a2⟩ := p
    by_cases hres : (anchorIsTooClose ct t2 d a2).1 = true
    · have hstate := anchorIsTooClose_true_state ct t2 d a2 hres
      simp only [runAnchors, hres, if_true]
      rw [ih (anchorIsTooClose ct t2 d a2).2, hstate]
    · simp only [Bool.not_eq_true] at hres
      simp only [runAnchors, hres, Bool.false_eq_true, if_false]
      by_cases ht : t2 = t
      · subst ht
        rw [ih (anchorIsTooClose ct t2 d a2).2,
          anchorIsTooClose_false_lookup ct t2 d a2 hres]
        simp [List.append_assoc]
      · rw [ih (anchorIsTooClose ct t2 d a2).2,
          anchorIsTooClose_lookup_other ct t2 t d a2 ht]
        simp [ht]

/-- C3: after a layout pass starting from the reset `compareText`, the
accepted line anchors sharing one identical text are pairwise at least
`textRepeatDistance = symbol-spacing * tilePixelRatio / 2` apart (distance
stated exactly through the squared comparison `distLt`), and one
`anchorIsTooClose` consultation reports true exactly when the candidate is
within that distance of some previously recorded anchor of the identical
text, recording the candidate otherwise. -/
theorem line_anchor_repeat_distance
    (symbolSpacing tilePixelRatio : ℚ) (cands : List (String × Anchor))
    (t : String) (ct : List (String × List Anchor)) (a : Anchor) :
    ((anchorIsTooClose ct t (textRepeatDistance symbolSpacing tilePixelRatio) a).1 = true ↔
      ∃ other ∈ (jsGet ct t).getD [],
        distLt a other (textRepeatDistance symbolSpacing tilePixelRatio) = true) ∧
    ((anchorIsTooClose ct t (textRepeatDistance symbolSpacing tilePixelRatio) a).1 = true →
      (anchorIsTooClose ct t (textRepeatDistance symbolSpacing tilePixelRatio) a).2 = ct) ∧
    ((anchorIsTooClose ct t (textRepeatDistance symbolSpacing tilePixelRatio) a).1 = false →
      jsGet (anchorIsTooClose ct t (textRepeatDistance symbolSpacing tilePixelRatio) a).2 t =
        some ((jsGet ct t).getD [] ++ [a])) ∧
    List.Pairwise
      (fun x y => distLt x y (textRepeatDistance symbolSpacing tilePixelRatio) = false)
      (((runAnchors (textRepeatDistance symbolSpacing tilePixelRatio) cands []).2.filter
        (fun p => p.1 = t)).map Prod.snd) := by
  refine ⟨anchorIsTooClose_true_iff ct t _ a,
    anchorIsTooClose_true_state ct t _ a,
    anchorIsTooClose_false_lookup ct t _ a, ?_⟩
  have hsep : compareTextSeparated (textRepeatDistance symbolSpacing tilePixelRatio)
      (runAnchors (textRepeatDistance symbolSpacing tilePixelRatio) cands []).1 := by
    refine runAnchors_separated _ cands [] ?_
    intro t2 l2 h2
    simp [jsGet] at h2
  have hacc := runAnchors_lookup (textRepeatDistance symbolSpacing tilePixelRatio) t cands []
  simp only [jsGet, Option.getD_none, List.nil_append] at hacc
  rw [← hacc]
  cases hjs : jsGet (runAnchors (textRepeatDistance symbolSpacing tilePixelRatio) cands []).1 t with
  | none => simp
  | some l => simpa [separated] using hsep t l hjs

/-- A record all of whose stored values are `undefined` yields no default
horizontal shaping. -/
theorem getDefaultHorizontalShaping_of_all_none
    (h : List (String × Option Shaping)) (hall : ∀ kv ∈ h, kv.2 = none) :
    getDefaultHorizontalShaping h = none := by
  cases h with
  | nil => rfl
  | cons kv rest => exact hall kv (List.mem_cons_self kv rest)

/-- C6: shaping failures degrade to omission: a feature with no text shaping
in any orientation but a shaped icon still reaches `addFeature`, a feature
with shaped text and no icon reaches it as well, and a feature with neither
is skipped entirely, contributing zero symbol instances and zero collision
boxes. -/
theorem shaping_failure_gate (L : LayoutInputs) (f : FeatureInput)
    (o : ShapedTextOrientations) (b : BucketState) :
    ((∀ kv ∈ o.horizontal, kv.2 = none) → o.vertical = none →
      f.shapedIcon.isSome = true → featureReachesAddFeature o f.shapedIcon = true) ∧
    ((shapedTextOf o).isSome = true →
      featureReachesAddFeature o f.shapedIcon = true) ∧
    ((∀ kv ∈ o.horizontal, kv.2 = none) → o.vertical = none →
      f.shapedIcon = none → processShapedFeature L f o b = some b) ∧
    ((∀ kv ∈ o.horizontal, kv.2 = none) → o.vertical = none →
      f.shapedIcon = none → ∀ b2, processShapedFeature L f o b = some b2 →
        b2.symbolInstances = b.symbolInstances ∧
        b2.collisionBoxArray = b.collisionBoxArray) := by
  have hnone : (∀ kv ∈ o.horizontal, kv.2 = none) → o.vertical = none →
      shapedTextOf o = none := by
    intro hall hv
    simp [shapedTextOf, getDefaultHorizontalShaping_of_all_none o.horizontal hall, hv]
  refine ⟨?_, ?_, ?_, ?_⟩
  · intro hall hv hicon
    simp [featureReachesAddFeature, hicon]
  · intro hst
    simp [featureReachesAddFeature, hst]
  · intro hall hv hicon
    simp [processShapedFeature, featureReachesAddFeature, hnone hall hv, hicon]
  · intro hall hv hicon b2 hb2
    have := hnone hall hv
    simp only [processShapedFeature, featureReachesAddFeature, this, hicon,
      Option.isSome_none, Bool.or_self, Bool.false_eq_true, if_false,
      Option.some.injEq] at hb2
    subst hb2
    exact ⟨rfl, rfl⟩

/-- Witness for C6: an icon-only feature passes the gate; a feature with
neither shaped text nor icon leaves the bucket untouched. -/
theorem shaping_failure_gate_witness :
    featureReachesAddFeature ⟨[("center", none)], none⟩ sampleFeature.shapedIcon = true ∧
    processShapedFeature sampleLayoutInputs emptyFeature ⟨[("center", none)], none⟩
      emptyBucketState = some emptyBucketState :=
  ⟨(shaping_failure_gate sampleLayoutInputs sampleFeature ⟨[("center", none)], none⟩
      emptyBucketState).1 (by decide) rfl rfl,
    (shaping_failure_gate sampleLayoutInputs emptyFeature ⟨[("center", none)], none⟩
      emptyBucketState).2.2.1 (by decide) rfl rfl⟩

/-- C9: determinism of the layout pass: two runs over equal inputs (bucket
features, the shaping functions derived from the glyph/image maps, style
layout values, and the zoom/canonical-derived sizes) produce identical
outcomes, in particular identical symbol instance and collision box arrays.
Every piece of bucket state the pass consults is reset at entry
(`createArrays()`, `compareText = {}`, lines 85-90), making the pass a pure
function of its inputs, and the iteration orders involved (object property
order, `Set` insertion order) are deterministic and modelled explicitly. -/
theorem layout_deterministic (L1 L2 : LayoutInputs) (h : L1 = L2) :
    performSymbolLayoutModel L1 = performSymbolLayoutModel L2 ∧
    (performSymbolLayoutModel L1).map (fun bk => bk.symbolInstances) =
      (performSymbolLayoutModel L2).map (fun bk => bk.symbolInstances) ∧
    (performSymbolLayoutModel L1).map (fun bk => bk.collisionBoxArray) =
      (performSymbolLayoutModel L2).map (fun bk => bk.collisionBoxArray) := by
  subst h
  exact ⟨rfl, rfl, rfl⟩

/-- Witness for C9 at a concrete layout input. -/
theorem layout_deterministic_witness :
    performSymbolLayoutModel sampleLayoutInputs = performSymbolLayoutModel sampleLayoutInputs ∧
    (performSymbolLayoutModel sampleLayoutInputs).map (fun bk => bk.symbolInstances) =
      (performSymbolLayoutModel sampleLayoutInputs).map (fun bk => bk.symbolInstances) ∧
    (performSymbolLayoutModel sampleLayoutInputs).map (fun bk => bk.collisionBoxArray) =
      (performSymbolLayoutModel sampleLayoutInputs).map (fun bk => bk.collisionBoxArray) :=
  layout_deterministic sampleLayoutInputs sampleLayoutInputs rfl

/-- A list is a prefix of itself extended. -/
theorem length_le_of_append {α : Type} (l1 l2 : List α) :
    l1.length ≤ (l1 ++ l2).length := by simp

/-- Looking up the first property of a record returns its value. -/
theorem jsGet_first {α : Type} (e : String × α) (rest : List (String × α)) :
    jsGet (e :: rest) e.1 = some e.2 := by
  cases e
  simp [jsGet]

/-- Facts about the vertical collision feature block: the array only grows,
the built features have valid box ranges carrying the vertical circles, and
a feature is absent exactly when its build condition fails. -/
theorem vertStep_spec (a : AddSymbolArgs) (arr0 : List CollisionBox) :
    (∃ tail, (addSymbolVerticalFeatures a arr0).arr = arr0 ++ tail) ∧
    (∀ cf, (addSymbolVerticalFeatures a arr0).verticalTextCollisionFeature = some cf →
      cf.boxStartIndex ≤ cf.boxEndIndex ∧
      cf.boxEndIndex ≤ (addSymbolVerticalFeatures a arr0).arr.length) ∧
    (∀ cf, (addSymbolVerticalFeatures a arr0).verticalIconCollisionFeature = some cf →
      cf.boxStartIndex ≤ cf.boxEndIndex ∧
      cf.boxEndIndex ≤ (addSymbolVerticalFeatures a arr0).arr.length) ∧
    ((addSymbolVerticalFeatures a arr0).verticalTextCollisionFeature = none ↔
      ¬(a.allowVerticalPlacement = true ∧ a.orientations.vertical.isSome = true)) ∧
    ((addSymbolVerticalFeatures a arr0).verticalIconCollisionFeature = none ↔
      ¬(a.allowVerticalPlacement = true ∧ a.orientations.vertical.isSome = true ∧
        a.verticallyShapedIcon.isSome = true)) ∧
    featureCircle (addSymbolVerticalFeatures a arr0).verticalTextCollisionFeature =
      verticalTextCircle a ∧
    featureCircle (addSymbolVerticalFeatures a arr0).verticalIconCollisionFeature =
      verticalIconCircle a := by
  cases hv : a.orientations.vertical with
  | none =>
    refine ⟨⟨[], by simp [addSymbolVerticalFeatures, hv]⟩, ?_, ?_, ?_, ?_, ?_, ?_⟩ <;>
      simp [addSymbolVerticalFeatures, hv, verticalTextCircle, verticalIconCircle,
        featureCircle]
  | some vs =>
    cases hb : a.allowVerticalPlacement with
    | false =>
      refine ⟨⟨[], by simp [addSymbolVerticalFeatures, hv, hb]⟩, ?_, ?_, ?_, ?_, ?_, ?_⟩ <;>
        simp [addSymbolVerticalFeatures, hv, hb, verticalTextCircle, verticalIconCircle,
          featureCircle]
    | true =>
      cases hvi : a.verticallyShapedIcon with
      | none =>
        refine ⟨⟨vs.collisionBoxes,
          by simp [addSymbolVerticalFeatures, hv, hb, hvi, mkCollisionFeature]⟩,
          ?_, ?_, ?_, ?_, ?_, ?_⟩ <;>
          simp [addSymbolVerticalFeatures, hv, hb, hvi, mkCollisionFeature,
            verticalTextCircle, verticalIconCircle, featureCircle] <;>
          omega
      | some vi =>
        refine ⟨⟨vs.collisionBoxes ++ vi.collisionBoxes,
          by simp [addSymbolVerticalFeatures, hv, hb, hvi, mkCollisionFeature]⟩,
          ?_, ?_, ?_, ?_, ?_, ?_⟩ <;>
          simp [addSymbolVerticalFeatures, hv, hb, hvi, mkCollisionFeature,
            verticalTextCircle, verticalIconCircle, featureCircle] <;>
          omega

/-- Facts about the icon collision feature block: the array only grows, a
built icon feature has a valid box range, the feature is absent exactly when
no icon was shaped, and it carries the icon circle. -/
theorem iconStep_spec (a : AddSymbolArgs) (arr1 : List CollisionBox) (cnt : ℕ) :
    (∃ tail, (addSymbolIcon a arr1 cnt).arr = arr1 ++ tail) ∧
    (∀ cf, (addSymbolIcon a arr1 cnt).iconCollisionFeature = some cf →
      cf.boxStartIndex ≤ cf.boxEndIndex ∧
      cf.boxEndIndex ≤ (addSymbolIcon a arr1 cnt).arr.length) ∧
    ((addSymbolIcon a arr1 cnt).iconCollisionFeature = none ↔ a.shapedIcon = none) ∧
    featureCircle (addSymbolIcon a arr1 cnt).iconCollisionFeature = iconCircle a := by
  cases hi : a.shapedIcon with
  | none =>
    refine ⟨⟨[], by simp [addSymbolIcon, hi]⟩, ?_, ?_, ?_⟩ <;>
      simp [addSymbolIcon, hi, iconCircle, featureCircle]
  | some ic =>
    cases hvi : a.verticallyShapedIcon with
    | none =>
      refine ⟨⟨ic.collisionBoxes, by simp [addSymbolIcon, hi, hvi, mkCollisionFeature]⟩,
        ?_, ?_, ?_⟩ <;>
        simp [addSymbolIcon, hi, hvi, mkCollisionFeature, iconCircle, featureCircle] <;>
        omega
    | some vi =>
      refine ⟨⟨ic.collisionBoxes, by simp [addSymbolIcon, hi, hvi, mkCollisionFeature]⟩,
        ?_, ?_, ?_⟩ <;>
        simp [addSymbolIcon, hi, hvi, mkCollisionFeature, iconCircle, featureCircle] <;>
        omega

/-- Outcome of the justification loop of `addSymbol`, phrased against the
horizontal record: either there is no horizontal shaping and the loop state
is untouched, or the text collision feature, boxes and key are built from
the first stored shaping. -/
theorem textLoop_outcome (m : String → ℕ) (a : AddSymbolArgs) (b : BucketState)
    (st : TextLoopState)
    (hrun : textSymbolLoop m (jsKeys a.orientations.horizontal)
      a.orientations.horizontal (jsKeys a.orientations.horizontal)
      (initialTextLoopState m a b) = some st) :
    (a.orientations.horizontal = [] ∧ st = initialTextLoopState m a b) ∨
    (∃ k h2 s, a.orientations.horizontal = (k, some s) :: h2 ∧
      st.textCollisionFeature = some
        ⟨(initialTextLoopState m a b).collisionBoxArray.length,
          (initialTextLoopState m a b).collisionBoxArray.length + s.collisionBoxes.length,
          s.collisionCircle⟩ ∧
      st.collisionBoxArray =
        (initialTextLoopState m a b).collisionBoxArray ++ s.collisionBoxes ∧
      st.key = m s.text) := by
  have hstart := textSymbolLoop_start m (jsKeys a.orientations.horizontal)
    a.orientations.horizontal (jsKeys a.orientations.horizontal)
    (initialTextLoopState m a b) st rfl hrun
  rcases hstart with ⟨hks, hst⟩ | ⟨k, rest, s, hks, hget, h1, h2, h3⟩
  · left
    exact ⟨by simpa [jsKeys] using hks, hst⟩
  · right
    cases hh : a.orientations.horizontal with
    | nil => rw [hh] at hks; simp [jsKeys] at hks
    | cons e0 htl =>
      obtain ⟨k0, v0⟩ := e0
      rw [hh] at hks hget
      simp only [jsKeys, List.map_cons, List.cons.injEq] at hks
      obtain ⟨hk0, -⟩ := hks
      rw [← hk0] at hget
      rw [show jsGet ((k0, v0) :: htl) k0 = some v0 from by simp [jsGet]] at hget
      obtain rfl : v0 = some s := by injection hget
      exact ⟨k0, htl, s, rfl, h1, h2, h3⟩

/-- `getCollisionCircleHeight` only depends on the circle the feature
carries. -/
theorem getCollisionCircleHeight_eq (f : Option CollisionFeature) (p : ℚ) :
    getCollisionCircleHeight f p = circStep (featureCircle f) p := by
  cases f with
  | none => rfl
  | some cf =>
    cases hcf : cf.circleDiameter <;>
      simp [getCollisionCircleHeight, circStep, featureCircle, hcf]

/-- One `circStep` is the fold over the optional circle's element list. -/
theorem circStep_eq_circFold (o : Option ℚ) (p : ℚ) :
    circStep o p = circFold o.toList p := by
  cases o with
  | none => rfl
  | some d => simp [circStep, circFold]

/-- `circFold` distributes over append. -/
theorem circFold_append (l1 l2 : List ℚ) (p : ℚ) :
    circFold (l1 ++ l2) p = circFold l2 (circFold l1 p) := by
  simp [circFold, List.foldl_append]

/-- For positive diameters `circFold` computes an upper bound that is either
the start value or one of the diameters. -/
theorem circFold_spec :
    ∀ (l : List ℚ) (p : ℚ), (∀ d ∈ l, 0 < d) →
      p ≤ circFold l p ∧ (∀ d ∈ l, d ≤ circFold l p) ∧
      (circFold l p = p ∨ circFold l p ∈ l) := by
  intro l
  induction l with
  | nil => intro p _; exact ⟨le_refl p, by simp, Or.inl rfl⟩
  | cons d rest ih =>
    intro p hpos
    have hd : 0 < d := hpos d (List.mem_cons_self d rest)
    have hrest : ∀ x ∈ rest, 0 < x := fun x hx => hpos x (List.mem_cons_of_mem d hx)
    have hstep : circFold (d :: rest) p = circFold rest (max d p) := by
      simp [circFold, hd.ne']
    obtain ⟨h1, h2, h3⟩ := ih (max d p) hrest
    rw [hstep]
    refine ⟨le_trans (le_max_right d p) h1, ?_, ?_⟩
    · intro x hx
      rcases List.mem_cons.mp hx with hx | hx
      · subst hx; exact le_trans (le_max_left x p) h1
      · exact h2 x hx
    · rcases h3 with h3 | h3
      · rcases max_choice d p with hm | hm
        · exact Or.inr (by rw [h3, hm]; exact List.mem_cons_self d rest)
        · exact Or.inl (h3.trans hm)
      · exact Or.inr (List.mem_cons_of_mem d h3)

/-- C8: the symbol instance's `useRuntimeCollisionCircles` flag is 1 exactly
when at least one of the four built collision features carries a (truthy)
circle diameter; in that case the stored `collisionCircleDiameter` is the
maximum carried diameter scaled by `layoutTextSize / ONE_EM`, otherwise it is
-1.  Circle diameters of built features are positive (they are heights in em
units), stated as the hypothesis `hpos`. -/
theorem runtime_collision_circles (m : String → ℕ) (a : AddSymbolArgs)
    (anchor : Anchor) (b : BucketState)
    (h : loopReachesNoUndefined a.orientations.horizontal = true)
    (hpos : ∀ d ∈ builtCircles a, 0 < d) :
    ∃ c inst, addSymbol m a anchor b = some c ∧
      c.symbolInstances = b.symbolInstances ++ [inst] ∧
      (builtCircles a = [] → inst.useRuntimeCollisionCircles = 0 ∧
        inst.collisionCircleDiameter = -1) ∧
      (builtCircles a ≠ [] → inst.useRuntimeCollisionCircles = 1 ∧
        ∃ M, M ∈ builtCircles a ∧ (∀ d ∈ builtCircles a, d ≤ M) ∧
          inst.collisionCircleDiameter = M * (a.layoutTextSize / ONE_EM)) := by
  obtain ⟨st, hloop⟩ := textSymbolLoop_total m (jsKeys a.orientations.horizontal)
    a.orientations.horizontal (jsKeys a.orientations.horizontal)
    (initialTextLoopState m a b) h
  refine ⟨_, _, addSymbol_eq_finish m a anchor b st hloop, rfl, ?_, ?_⟩ <;>
  · have hTC : featureCircle st.textCollisionFeature = firstHorizontalCircle a := by
      rcases textLoop_outcome m a b st hloop with ⟨hh, hst⟩ | ⟨k, h2, s, hh, h1, -, -⟩
      · rw [hst]
        simp [initialTextLoopState, featureCircle, firstHorizontalCircle, hh]
      · rw [h1]
        simp [featureCircle, firstHorizontalCircle, hh]
    obtain ⟨-, -, -, -, -, hVC, hVIC⟩ := vertStep_spec a b.collisionBoxArray
    obtain ⟨-, -, -, hIC⟩ := iconStep_spec a
      (addSymbolVerticalFeatures a b.collisionBoxArray).arr b.iconPlacedSymbolCount
    have hd4 : getCollisionCircleHeight
        (addSymbolVerticalFeatures a b.collisionBoxArray).verticalIconCollisionFeature
        (getCollisionCircleHeight
          (addSymbolIcon a (addSymbolVerticalFeatures a b.collisionBoxArray).arr
            b.iconPlacedSymbolCount).iconCollisionFeature
          (getCollisionCircleHeight
            (addSymbolVerticalFeatures a b.collisionBoxArray).verticalTextCollisionFeature
            (getCollisionCircleHeight st.textCollisionFeature (-1)))) =
        circFold (builtCircles a) (-1) := by
      simp only [getCollisionCircleHeight_eq, hTC, hVC, hIC, hVIC,
        circStep_eq_circFold, builtCircles, circFold_append]
    intro hbc
    · first
      | (refine ⟨?_, ?_⟩ <;>
          · simp only [emplacedInstance]
            rw [hd4, hbc]
            norm_num [circFold])
      | (have hFpos : (-1 : ℚ) < circFold (builtCircles a) (-1) := by
          obtain ⟨d0, hd0⟩ := List.exists_mem_of_ne_nil _ hbc
          obtain ⟨-, h2, -⟩ := circFold_spec (builtCircles a) (-1) hpos
          calc (-1 : ℚ) < 0 := by norm_num
            _ < d0 := hpos d0 hd0
            _ ≤ _ := h2 d0 hd0
         obtain ⟨-, h2, h3⟩ := circFold_spec (builtCircles a) (-1) hpos
         have hmem : circFold (builtCircles a) (-1) ∈ builtCircles a := by
           rcases h3 with h3 | h3
           · rw [h3] at hFpos; exact absurd hFpos (lt_irrefl (-1))
           · exact h3
         refine ⟨?_, circFold (builtCircles a) (-1), hmem, h2, ?_⟩ <;>
           · simp only [emplacedInstance]
             rw [hd4]
             simp [hFpos])

/-- Witness for C8 at concrete arguments whose icon carries circle
diameter 10. -/
theorem runtime_collision_circles_witness :
    ∃ c inst, addSymbol String.length sampleCircleArgs ⟨10, 20, 0⟩ emptyBucketState = some c ∧
      c.symbolInstances = emptyBucketState.symbolInstances ++ [inst] ∧
      (builtCircles sampleCircleArgs = [] → inst.useRuntimeCollisionCircles = 0 ∧
        inst.collisionCircleDiameter = -1) ∧
      (builtCircles sampleCircleArgs ≠ [] → inst.useRuntimeCollisionCircles = 1 ∧
        ∃ M, M ∈ builtCircles sampleCircleArgs ∧
          (∀ d ∈ builtCircles sampleCircleArgs, d ≤ M) ∧
          inst.collisionCircleDiameter =
            M * (sampleCircleArgs.layoutTextSize / ONE_EM)) :=
  runtime_collision_circles String.length sampleCircleArgs ⟨10, 20, 0⟩
    emptyBucketState (by decide) (by decide)

/-- C4: every symbol instance emplaced by `addSymbol` has, for each of its
four collision kinds, a `[startIndex, endIndex)` range with
`startIndex ≤ endIndex ≤ length` of the bucket's collision box array at
emplacement time; when the corresponding collision feature was not built,
the range is empty (start = end = current array length), never dangling. -/
theorem collision_ranges_valid (m : String → ℕ) (a : AddSymbolArgs)
    (anchor : Anchor) (b : BucketState)
    (h : loopReachesNoUndefined a.orientations.horizontal = true) :
    ∃ c inst, addSymbol m a anchor b = some c ∧
      c.symbolInstances = b.symbolInstances ++ [inst] ∧
      (inst.textBoxStartIndex ≤ inst.textBoxEndIndex ∧
        inst.textBoxEndIndex ≤ c.collisionBoxArray.length) ∧
      (inst.verticalTextBoxStartIndex ≤ inst.verticalTextBoxEndIndex ∧
        inst.verticalTextBoxEndIndex ≤ c.collisionBoxArray.length) ∧
      (inst.iconBoxStartIndex ≤ inst.iconBoxEndIndex ∧
        inst.iconBoxEndIndex ≤ c.collisionBoxArray.length) ∧
      (inst.verticalIconBoxStartIndex ≤ inst.verticalIconBoxEndIndex ∧
        inst.verticalIconBoxEndIndex ≤ c.collisionBoxArray.length) ∧
      (a.orientations.horizontal = [] →
        inst.textBoxStartIndex = c.collisionBoxArray.length ∧
        inst.textBoxEndIndex = c.collisionBoxArray.length) ∧
      (¬(a.allowVerticalPlacement = true ∧ a.orientations.vertical.isSome = true) →
        inst.verticalTextBoxStartIndex = c.collisionBoxArray.length ∧
        inst.verticalTextBoxEndIndex = c.collisionBoxArray.length) ∧
      (a.shapedIcon = none →
        inst.iconBoxStartIndex = c.collisionBoxArray.length ∧
        inst.iconBoxEndIndex = c.collisionBoxArray.length) ∧
      (¬(a.allowVerticalPlacement = true ∧ a.orientations.vertical.isSome = true ∧
          a.verticallyShapedIcon.isSome = true) →
        inst.verticalIconBoxStartIndex = c.collisionBoxArray.length ∧
        inst.verticalIconBoxEndIndex = c.collisionBoxArray.length) := by
  obtain ⟨st, hloop⟩ := textSymbolLoop_total m (jsKeys a.orientations.horizontal)
    a.orientations.horizontal (jsKeys a.orientations.horizontal)
    (initialTextLoopState m a b) h
  obtain ⟨⟨t1, ha1⟩, hvt, hvi, hvtn, hvin, -, -⟩ := vertStep_spec a b.collisionBoxArray
  obtain ⟨⟨t2, ha2⟩, hic, hicn, -⟩ := iconStep_spec a
    (addSymbolVerticalFeatures a b.collisionBoxArray).arr b.iconPlacedSymbolCount
  have harrSt : ∃ t3, st.collisionBoxArray =
      (addSymbolIcon a (addSymbolVerticalFeatures a b.collisionBoxArray).arr
        b.iconPlacedSymbolCount).arr ++ t3 := by
    rcases textLoop_outcome m a b st hloop with ⟨hh, hst⟩ | ⟨k, h2, s, hh, -, hsa, -⟩
    · exact ⟨[], by simp [hst, initialTextLoopState]⟩
    · exact ⟨s.collisionBoxes, by simpa [initialTextLoopState] using hsa⟩
  obtain ⟨t3, ha3⟩ := harrSt
  have hlen2 : (addSymbolIcon a (addSymbolVerticalFeatures a b.collisionBoxArray).arr
      b.iconPlacedSymbolCount).arr.length ≤ st.collisionBoxArray.length := by
    rw [ha3]; exact length_le_of_append _ _
  have hlen1 : (addSymbolVerticalFeatures a b.collisionBoxArray).arr.length ≤
      st.collisionBoxArray.length :=
    le_trans (by rw [ha2]; exact length_le_of_append _ _) hlen2
  have htcf_none : a.orientations.horizontal = [] → st.textCollisionFeature = none := by
    intro hh
    rcases textLoop_outcome m a b st hloop with ⟨-, hst⟩ | ⟨k, h2, s, hh2, -, -, -⟩
    · rw [hst]; rfl
    · rw [hh] at hh2; cases hh2
  have htcf_some : ∀ cf, st.textCollisionFeature = some cf →
      cf.boxStartIndex ≤ cf.boxEndIndex ∧
      cf.boxEndIndex ≤ st.collisionBoxArray.length := by
    intro cf hcf
    rcases textLoop_outcome m a b st hloop with ⟨-, hst⟩ | ⟨k, h2, s, -, h1, hsa, -⟩
    · rw [hst] at hcf; cases hcf
    · rw [h1] at hcf
      obtain rfl : _ = cf := by injection hcf
      refine ⟨by simp, ?_⟩
      rw [hsa]
      simp [initialTextLoopState]
  have hV : ∀ cf, (addSymbolVerticalFeatures a b.collisionBoxArray).verticalTextCollisionFeature =
      some cf → cf.boxStartIndex ≤ cf.boxEndIndex ∧
      cf.boxEndIndex ≤ st.collisionBoxArray.length :=
    fun cf hcf => ⟨(hvt cf hcf).1, le_trans (hvt cf hcf).2 hlen1⟩
  have hVI : ∀ cf, (addSymbolVerticalFeatures a b.collisionBoxArray).verticalIconCollisionFeature =
      some cf → cf.boxStartIndex ≤ cf.boxEndIndex ∧
      cf.boxEndIndex ≤ st.collisionBoxArray.length :=
    fun cf hcf => ⟨(hvi cf hcf).1, le_trans (hvi cf hcf).2 hlen1⟩
  have hI : ∀ cf, (addSymbolIcon a (addSymbolVerticalFeatures a b.collisionBoxArray).arr
      b.iconPlacedSymbolCount).iconCollisionFeature =
      some cf → cf.boxStartIndex ≤ cf.boxEndIndex ∧
      cf.boxEndIndex ≤ st.collisionBoxArray.length :=
    fun cf hcf => ⟨(hic cf hcf).1, le_trans (hic cf hcf).2 hlen2⟩
  refine ⟨_, _, addSymbol_eq_finish m a anchor b st hloop, rfl, ?_, ?_, ?_, ?_, ?_, ?_, ?_, ?_⟩
  · cases hx : st.textCollisionFeature with
    | none => simp [emplacedInstance, addSymbolFinish, hx]
    | some cf => simpa [emplacedInstance, addSymbolFinish, hx] using htcf_some cf hx
  · cases hx : (addSymbolVerticalFeatures a b.collisionBoxArray).verticalTextCollisionFeature with
    | none => simp [emplacedInstance, addSymbolFinish, hx]
    | some cf => simpa [emplacedInstance, addSymbolFinish, hx] using hV cf hx
  · cases hx : (addSymbolIcon a (addSymbolVerticalFeatures a b.collisionBoxArray).arr
        b.iconPlacedSymbolCount).iconCollisionFeature with
    | none => simp [emplacedInstance, addSymbolFinish, hx]
    | some cf => simpa [emplacedInstance, addSymbolFinish, hx] using hI cf hx
  · cases hx : (addSymbolVerticalFeatures a b.collisionBoxArray).verticalIconCollisionFeature with
    | none => simp [emplacedInstance, addSymbolFinish, hx]
    | some cf => simpa [emplacedInstance, addSymbolFinish, hx] using hVI cf hx
  · intro hh
    simp [emplacedInstance, addSymbolFinish, htcf_none hh]
  · intro hcond
    simp [emplacedInstance, addSymbolFinish, hvtn.mpr hcond]
  · intro hcond
    simp [emplacedInstance, addSymbolFinish, hicn.mpr hcond]
  · intro hcond
    simp [emplacedInstance, addSymbolFinish, hvin.mpr hcond]

/-- Witness for C4 at concrete single-line text arguments. -/
theorem collision_ranges_valid_witness :
    ∃ c inst, addSymbol String.length sampleTextArgs ⟨10, 20, 0⟩ emptyBucketState = some c ∧
      c.symbolInstances = emptyBucketState.symbolInstances ++ [inst] ∧
      (inst.textBoxStartIndex ≤ inst.textBoxEndIndex ∧
        inst.textBoxEndIndex ≤ c.collisionBoxArray.length) ∧
      (inst.verticalTextBoxStartIndex ≤ inst.verticalTextBoxEndIndex ∧
        inst.verticalTextBoxEndIndex ≤ c.collisionBoxArray.length) ∧
      (inst.iconBoxStartIndex ≤ inst.iconBoxEndIndex ∧
        inst.iconBoxEndIndex ≤ c.collisionBoxArray.length) ∧
      (inst.verticalIconBoxStartIndex ≤ inst.verticalIconBoxEndIndex ∧
        inst.verticalIconBoxEndIndex ≤ c.collisionBoxArray.length) ∧
      (sampleTextArgs.orientations.horizontal = [] →
        inst.textBoxStartIndex = c.collisionBoxArray.length ∧
        inst.textBoxEndIndex = c.collisionBoxArray.length) ∧
      (¬(sampleTextArgs.allowVerticalPlacement = true ∧
          sampleTextArgs.orientations.vertical.isSome = true) →
        inst.verticalTextBoxStartIndex = c.collisionBoxArray.length ∧
        inst.verticalTextBoxEndIndex = c.collisionBoxArray.length) ∧
      (sampleTextArgs.shapedIcon = none →
        inst.iconBoxStartIndex = c.collisionBoxArray.length ∧
        inst.iconBoxEndIndex = c.collisionBoxArray.length) ∧
      (¬(sampleTextArgs.allowVerticalPlacement = true ∧
          sampleTextArgs.orientations.vertical.isSome = true ∧
          sampleTextArgs.verticallyShapedIcon.isSome = true) →
        inst.verticalIconBoxStartIndex = c.collisionBoxArray.length ∧
        inst.verticalIconBoxEndIndex = c.collisionBoxArray.length) :=
  collision_ranges_valid String.length sampleTextArgs ⟨10, 20, 0⟩ emptyBucketState
    (by decide)

end SymbolLayout
